import Mathlib

set_option maxRecDepth 10000

/-! # Verification of the JSON-Compiler repository

Shallow embedding of the two core source files:

* `src/DFA.py` — a DFA-based tokenizer (`DFA.tokenize`) producing a list of
  lexemes (`tokens`) and a parallel list of token kinds (`token_types`);
* `src/ParseTree.py` — a recursive-descent parser (`ParseTree.parse`,
  `parse_dict`, `parse_list`) that simultaneously builds a concrete parse
  tree and an abstract syntax tree.

Python exceptions are modelled with `Except`; each `raise` site gets its own
constructor.  The parser's two mutually recursive grammar procedures and
their internal `while` loops become mutually recursive functions driven by a
fuel parameter (the entry point supplies fuel that is far larger than any
possible number of calls, namely `4 * token_count + 16`; every loop
iteration advances the cursor by at least one token).  Python list indexing
(including negative indices) is modelled by `pyGet`; the in-place
`children.pop()` and `children[-1].label = ...` mutations become the
functional `popLastChild` / `editLastChild`, which fail with `indexError`
exactly when the Python would raise `IndexError`.
-/

namespace JsonCompiler

/-! ## Tokenizer (src/DFA.py) -/

/-- Each `raise ValueError` site of `DFA.tokenize`. -/
inductive LexErr where
  | unexpectedCharacter (pos : Nat) (c : Char)
  | unexpectedEndOfInputInString
  | invalidNumber (pos : Nat) (buf : String)
  | invalidToken (pos : Nat) (buf : String)
  | invalidNumberAtEnd (buf : String)
  | unterminatedString
  | invalidKeywordAtEnd (buf : String)
  deriving Repr, DecidableEq

/-- The lexer's instance state: `self.tokens` (lexemes) and
`self.token_types` (kinds), as reassigned by `DFA.__init__`. -/
structure DFA where
  tokens : List String
  token_types : List String
  deriving Repr, DecidableEq

/-- `DFA.__init__`: fresh empty token lists. -/
def DFA.init : DFA := { tokens := [], token_types := [] }

/-- The DFA states of `tokenize`: `"S0"`, `"STRING"`, `"NUMBER"`,
`"KEYWORD"`, each non-start state carrying `current_token`.  The source's
`STRING` state consumes two characters at once on a backslash (`i += 1`
inside the loop body); that mid-iteration position is represented by the
extra state `strEsc`, so that every transition consumes exactly one
character. -/
inductive LexState where
  | s0
  | str (buf : String)
  | strEsc (buf : String)
  | num (buf : String)
  | kw (buf : String)
  deriving Repr, DecidableEq

/-- Consume a maximal run of decimal digits; return how many and the rest. -/
def takeDigits : List Char → Nat × List Char
  | [] => (0, [])
  | c :: rest =>
    if c.isDigit then
      let p := takeDigits rest
      (p.1 + 1, p.2)
    else (0, c :: rest)

/-- Strip one optional leading sign. -/
def dropSign : List Char → List Char
  | '+' :: rest => rest
  | '-' :: rest => rest
  | cs => cs

/-- Consume `digits [. digits]` or `. digits` (at least one digit in
total); return the remaining characters, or `none` when malformed. -/
def mantissaRest (cs : List Char) : Option (List Char) :=
  let p := takeDigits cs
  match p.2 with
  | '.' :: r2 =>
    let q := takeDigits r2
    if 0 < p.1 + q.1 then some q.2 else none
  | r => if 0 < p.1 then some r else none

/-- An optional exponent `([eE] [+-]? digits)` closing the literal. -/
def expPartOk : List Char → Bool
  | [] => true
  | c :: rest =>
    if c = 'e' ∨ c = 'E' then
      let q := takeDigits (dropSign rest)
      decide (0 < q.1) && q.2.isEmpty
    else false

/-- Whether Python's `float(s)` succeeds, for the strings reachable in
`tokenize`'s `NUMBER` state (first char a digit or `-`, subsequent chars
among digits and `. e E + -`): sign? (digits [. digits?] | . digits)
([eE] sign? digits)? -/
def isPyFloat (s : String) : Bool :=
  match mantissaRest (dropSign s.toList) with
  | some r => expPartOk r
  | none => false

/-- `p` is a prefix of `s`, character by character (Python's
`str.startswith`). -/
def charsStartWith : List Char → List Char → Bool
  | [], _ => true
  | _ :: _, [] => false
  | a :: p, b :: s => a = b && charsStartWith p s

/-- Python's `k.startswith(buf)`: `buf` is a prefix of `k`. -/
def pyStartswith (buf k : String) : Bool :=
  charsStartWith buf.toList k.toList

/-- One step of `tokenize` from state `"S0"` on character `c` at
position `pos` (also used for the one-character number pushback). -/
def stepS0 (d : DFA) (pos : Nat) (c : Char) : Except LexErr (DFA × LexState) :=
  if c = '\x7b' then
    .ok ({ tokens := d.tokens ++ ["LBRACE"], token_types := d.token_types ++ ["LBRACE"] }, .s0)
  else if c = '\x7d' then
    .ok ({ tokens := d.tokens ++ ["RBRACE"], token_types := d.token_types ++ ["RBRACE"] }, .s0)
  else if c = '[' then
    .ok ({ tokens := d.tokens ++ ["LBRACKET"], token_types := d.token_types ++ ["LBRACKET"] }, .s0)
  else if c = ']' then
    .ok ({ tokens := d.tokens ++ ["RBRACKET"], token_types := d.token_types ++ ["RBRACKET"] }, .s0)
  else if c = ':' then
    .ok ({ tokens := d.tokens ++ ["COLON"], token_types := d.token_types ++ ["COLON"] }, .s0)
  else if c = ',' then
    .ok ({ tokens := d.tokens ++ ["COMMA"], token_types := d.token_types ++ ["COMMA"] }, .s0)
  else if c = '\"' then
    .ok ({ d with token_types := d.token_types ++ ["STRING"] }, .str "")
  else if c.isDigit ∨ c = '-' then
    .ok ({ d with token_types := d.token_types ++ ["NUMBER"] }, .num (String.singleton c))
  else if c = 't' ∨ c = 'f' ∨ c = 'n' then
    .ok ({ d with token_types := d.token_types ++ ["KEYWORD"] }, .kw (String.singleton c))
  else if c.isWhitespace then
    .ok (d, .s0)
  else
    .error (.unexpectedCharacter pos c)

/-- One iteration of the `while i < len(json_input)` loop of
`DFA.tokenize`, on character `c` at position `pos`.  The
`NUMBER`-terminating `i -= 1` pushback is realised by emitting the number
and handling the terminating character with `stepS0` at the same position
within the same step. -/
def tokStep (d : DFA) (pos : Nat) (st : LexState) (c : Char) :
    Except LexErr (DFA × LexState) :=
  match st with
  | .s0 => stepS0 d pos c
  | .str buf =>
    if c = '\"' then
      .ok ({ d with tokens := d.tokens ++ ["STRING:" ++ buf] }, .s0)
    else if c = '\\' then
      .ok (d, .strEsc buf)
    else
      .ok (d, .str (buf.push c))
  | .strEsc buf =>
    .ok (d, .str (buf.push c))
  | .num buf =>
    if c.isDigit ∨ c = '.' ∨ c = 'e' ∨ c = 'E' ∨ c = '+' ∨ c = '-' then
      .ok (d, .num (buf.push c))
    else if isPyFloat buf then
      stepS0 { d with tokens := d.tokens ++ ["NUMBER:" ++ buf] } pos c
    else
      .error (.invalidNumber pos buf)
  | .kw buf =>
    let buf' := buf.push c
    if buf' = "true" then
      .ok ({ d with tokens := d.tokens ++ ["BOOL:TRUE"] }, .s0)
    else if buf' = "false" then
      .ok ({ d with tokens := d.tokens ++ ["BOOL:FALSE"] }, .s0)
    else if buf' = "null" then
      .ok ({ d with tokens := d.tokens ++ ["NULL"] }, .s0)
    else if pyStartswith buf' "true" ∨ pyStartswith buf' "false" ∨
        pyStartswith buf' "null" then
      .ok (d, .kw buf')
    else
      .error (.invalidToken pos buf')

/-- The "Handle end of input and incomplete tokens" block at the end of
`DFA.tokenize`.  Input ending right after a backslash inside a string is
the `i < len(json_input)` failure of the escape handler. -/
def tokEnd (d : DFA) (st : LexState) : Except LexErr DFA :=
  match st with
  | .s0 => .ok d
  | .str _ => .error .unterminatedString
  | .strEsc _ => .error .unexpectedEndOfInputInString
  | .num buf =>
    if isPyFloat buf then .ok { d with tokens := d.tokens ++ ["NUMBER:" ++ buf] }
    else .error (.invalidNumberAtEnd buf)
  | .kw buf =>
    if buf = "true" ∨ buf = "false" ∨ buf = "null" then .ok d
    else .error (.invalidKeywordAtEnd buf)

/-- The main loop of `DFA.tokenize`: iterate `tokStep` over the input,
then run the end-of-input block. -/
def tokGo (d : DFA) (pos : Nat) (st : LexState) : List Char → Except LexErr DFA
  | [] => tokEnd d st
  | c :: rest =>
    match tokStep d pos st c with
    | .error e => .error e
    | .ok (d', st') => tokGo d' (pos + 1) st' rest

/-- `DFA.tokenize`: run the DFA over the whole input, appending to the
instance's existing token lists (as the Python method does). -/
def DFA.tokenize (d : DFA) (json_input : String) : Except LexErr DFA :=
  tokGo d 0 .s0 json_input.toList

/-! ## Tree nodes (class `Node` of src/ParseTree.py)

Parent pointers are dropped: they are never consulted when a finished tree
is observed, and every child sits in its parent's `children` list. -/

/-- A tree node: `label`, `is_leaf`, ordered `children`. -/
inductive Node where
  | mk (label : String) (is_leaf : Bool) (children : List Node)

def Node.label : Node → String
  | .mk l _ _ => l

def Node.isLeafFlag : Node → Bool
  | .mk _ b _ => b

def Node.children : Node → List Node
  | .mk _ _ cs => cs

/-- `Node.add_child`: append to the ordered child list. -/
def Node.add_child : Node → Node → Node
  | .mk l b cs, child => .mk l b (cs ++ [child])

mutual
/-- Number of nodes carrying `is_leaf = True` in a tree. -/
def Node.leafCount : Node → Nat
  | .mk _ b cs => (if b then 1 else 0) + Node.leafCountL cs
def Node.leafCountL : List Node → Nat
  | [] => 0
  | n :: ns => Node.leafCount n + Node.leafCountL ns
end

/-- The labels the parser gives to punctuation leaves of the parse tree. -/
def punctLabels : List String := ["\x7b", "\x7d", "[", "]", ":", ","]

mutual
/-- Every label in the tree has length at least 4 (true of every AST the
parser builds, since every lexeme emitted by the tokenizer has length at
least 4). -/
def Node.labelsLong : Node → Bool
  | .mk l _ cs => decide (4 ≤ l.length) && Node.labelsLongL cs
def Node.labelsLongL : List Node → Bool
  | [] => true
  | n :: ns => Node.labelsLong n && Node.labelsLongL ns
end

mutual
/-- No node of the tree is labelled with one of the single-character
punctuation labels `{ } [ ] : ,`. -/
def Node.punctFree : Node → Bool
  | .mk l _ cs => decide (l ∉ punctLabels) && Node.punctFreeL cs
def Node.punctFreeL : List Node → Bool
  | [] => true
  | n :: ns => Node.punctFree n && Node.punctFreeL ns
end

/-- `n.children[i]` as an option, for stating concrete tree facts. -/
def childAt (n : Node) (i : Nat) : Option Node :=
  n.children.get? i

/-! ## Parser (class `ParseTree` of src/ParseTree.py) -/

/-- Each `raise` site of `ParseTree`, plus `outOfFuel` (unreachable for the
fuel supplied by `ParseTree.parse`) and `indexError` for Python
`IndexError`s (out-of-range list subscripts, `pop` from an empty list). -/
inductive PErr where
  | outOfFuel
  | missingEndOfFile
  | illegalStart (tok : String)
  | trailingTokens
  | indexError
  | inconsistentListType (lexeme : String)
  | reservedWordAsString (lexeme : String)
  | invalidDecimal (lexeme : String)
  | invalidNumber (lexeme : String)
  | commaBeforeEndOfList (tokNum : Nat)
  | unknownTokenInList (tok : String) (tokNum : Nat)
  | unknownValueInList (tok : String)
  | emptyKey (lexeme : String)
  | reservedWordAsKey (lexeme : String)
  | duplicateKey (lexeme : String)
  | expectedColon (tok : String)
  | unexpectedValueTypeInDict (tok : String)
  | commaBeforeEndOfDict (tokNum : Nat)
  | unexpectedTokenInDict (tok : String) (tokNum : Nat)
  | unknownTokenInDict (tok : String) (tokNum : Nat)
  deriving Repr, DecidableEq

/-- The parser's cursor: `current_token_index` and `current_token`.
The invariant maintained by the code is `cur = token_types[idx - 1]`. -/
structure PState where
  idx : Nat
  cur : String
  deriving Repr, DecidableEq

/-- `ParseTree.get_next_token`: read `token_types[idx]`, advance the index;
an out-of-range read raises "Missing end of file token". -/
def get_next_token (tys : List String) (s : PState) : Except PErr PState :=
  match tys.get? s.idx with
  | some t => .ok { idx := s.idx + 1, cur := t }
  | none => .error .missingEndOfFile

/-- The `try: self.get_next_token() except: print("End of file")` pattern
used when a container closes: on failure the cursor is left unchanged. -/
def tryNext (tys : List String) (s : PState) : PState :=
  match get_next_token tys s with
  | .ok s' => s'
  | .error _ => s

/-- Python list subscription `xs[i]` with negative-index wrap-around;
out of range raises `IndexError`. -/
def pyGet (xs : List String) (i : Int) : Except PErr String :=
  let j : Int := if i < 0 then i + xs.length else i
  if j < 0 then .error .indexError
  else
    match xs.get? j.toNat with
    | some v => .ok v
    | none => .error .indexError

/-- `s[0]` on a Python string. -/
def pyFirstChar (s : String) : Except PErr Char :=
  match s.toList with
  | [] => .error .indexError
  | c :: _ => .ok c

/-- `s[-1]` on a Python string. -/
def pyLastChar (s : String) : Except PErr Char :=
  match s.toList.getLast? with
  | some c => .ok c
  | none => .error .indexError

/-- Python `str.isspace`: nonempty and all whitespace. -/
def pyIsspace (s : String) : Bool :=
  !s.toList.isEmpty && s.toList.all Char.isWhitespace

/-- The reserved words checked by the parser's semantic rules. -/
def reservedWords : List String := ["true", "false", "null"]

/-- `n.children.pop()`: drop the last child; `IndexError` when empty. -/
def popLastChild (n : Node) : Except PErr Node :=
  match n with
  | .mk l b cs =>
    if cs.isEmpty then .error .indexError
    else .ok (.mk l b cs.dropLast)

/-- `n.children[-1].label = n.children[-1].label + " : " + v`:
rewrite the last child's label in place. -/
def editLastChild (n : Node) (v : String) : Except PErr Node :=
  match n with
  | .mk l b cs =>
    match cs.getLast? with
    | none => .error .indexError
    | some c =>
      .ok (.mk l b (cs.dropLast ++ [.mk (c.label ++ " : " ++ v) c.isLeafFlag c.children]))

/-- The token kinds accepted at a value position
(`["STRING", "NUMBER", "KEYWORD", "LBRACKET", "LBRACE"]`). -/
def valueKinds : List String := ["STRING", "NUMBER", "KEYWORD", "LBRACKET", "LBRACE"]

mutual

/-- `ParseTree.parse_list` up to its element loop: build the `list` node
with its `[` leaf, handle the empty list, otherwise enter the loop with
`current_type` fixed to the first element's kind.  Returns the final
cursor, the parse-tree node and the AST node (the Python appends them to
the caller-supplied parents; the callers below do the same with the
returned nodes). -/
def parse_list (toks tys : List String) (fuel : Nat) (token_passed : String) (s : PState)
    (node_name : String) : Except PErr (PState × Node × Node) :=
  match fuel with
  | 0 => .error .outOfFuel
  | f + 1 =>
    let node : Node := .mk "list" false [.mk "[" true []]
    let ast_node : Node := .mk node_name false []
    if token_passed = "RBRACKET" then
      .ok (tryNext tys s, node.add_child (.mk "]" true []), ast_node)
    else
      parse_list_loop toks tys f token_passed token_passed s node ast_node

/-- One iteration of the `while token_passed in [...]` loop of
`parse_list`: the homogeneity check, the dispatch on the element's kind,
then the separator step. -/
def parse_list_loop (toks tys : List String) (fuel : Nat) (current_type token_passed : String)
    (s : PState) (node ast_node : Node) : Except PErr (PState × Node × Node) :=
  match fuel with
  | 0 => .error .outOfFuel
  | f + 1 =>
    if token_passed ∈ valueKinds then
      if current_type ≠ token_passed then
        match pyGet toks ((s.idx : Int) - 1) with
        | .error e => .error e
        | .ok lex => .error (.inconsistentListType lex)
      else if token_passed = "LBRACKET" then
        match get_next_token tys s with
        | .error e => .error e
        | .ok s1 =>
          match popLastChild ast_node with
          | .error e => .error e
          | .ok ast1 =>
            match pyGet toks ((s1.idx : Int) - 4) with
            | .error e => .error e
            | .ok name =>
              match parse_list toks tys f s1.cur s1 name with
              | .error e => .error e
              | .ok (s2, cn, ca) =>
                parse_list_sep toks tys f current_type s2 (node.add_child cn) (ast1.add_child ca)
      else if token_passed = "LBRACE" then
        match get_next_token tys s with
        | .error e => .error e
        | .ok s1 =>
          match popLastChild ast_node with
          | .error e => .error e
          | .ok ast1 =>
            match pyGet toks ((s1.idx : Int) - 4) with
            | .error e => .error e
            | .ok name =>
              match parse_dict toks tys f s1.cur s1 name with
              | .error e => .error e
              | .ok (s2, cn, ca) =>
                parse_list_sep toks tys f current_type s2 (node.add_child cn) (ast1.add_child ca)
      else if token_passed = "STRING" then
        match pyGet toks ((s.idx : Int) - 1) with
        | .error e => .error e
        | .ok node_val =>
          if node_val ∈ reservedWords then .error (.reservedWordAsString node_val)
          else
            match get_next_token tys s with
            | .error e => .error e
            | .ok s1 =>
              parse_list_sep toks tys f current_type s1
                (node.add_child (.mk node_val true [])) (ast_node.add_child (.mk node_val true []))
      else if token_passed = "NUMBER" then
        match pyGet toks ((s.idx : Int) - 1) with
        | .error e => .error e
        | .ok node_val =>
          match pyLastChar node_val with
          | .error e => .error e
          | .ok lastC =>
            match pyFirstChar node_val with
            | .error e => .error e
            | .ok firstC =>
              if lastC = '.' ∨ firstC = '.' then .error (.invalidDecimal node_val)
              else if firstC = '0' ∨ firstC = '+' then .error (.invalidNumber node_val)
              else
                match get_next_token tys s with
                | .error e => .error e
                | .ok s1 =>
                  parse_list_sep toks tys f current_type s1
                    (node.add_child (.mk node_val true []))
                    (ast_node.add_child (.mk node_val true []))
      else
        match pyGet toks ((s.idx : Int) - 1) with
        | .error e => .error e
        | .ok lex =>
          match get_next_token tys s with
          | .error e => .error e
          | .ok s1 =>
            parse_list_sep toks tys f current_type s1
              (node.add_child (.mk lex true [])) (ast_node.add_child (.mk lex true []))
    else if token_passed = "RBRACKET" then
      .ok (s, node, ast_node)
    else .error (.unknownValueInList token_passed)

/-- The bottom of `parse_list`'s loop: after an element, expect a comma
(and loop) or the closing bracket (and return). -/
def parse_list_sep (toks tys : List String) (fuel : Nat) (current_type : String) (s : PState)
    (node ast_node : Node) : Except PErr (PState × Node × Node) :=
  match fuel with
  | 0 => .error .outOfFuel
  | f + 1 =>
    if s.cur = "COMMA" then
      match get_next_token tys s with
      | .error e => .error e
      | .ok s1 =>
        if s1.cur = "RBRACKET" then .error (.commaBeforeEndOfList s1.idx)
        else
          parse_list_loop toks tys f current_type s1.cur s1
            (node.add_child (.mk "," true [])) ast_node
    else if s.cur = "RBRACKET" then
      .ok (tryNext tys s, node.add_child (.mk "]" true []), ast_node)
    else .error (.unknownTokenInList s.cur s.idx)

/-- `ParseTree.parse_dict` up to its member loop: build the `dict` node
with its `{` leaf, handle the empty object, otherwise enter the member
loop with a fresh (empty) `keys` list. -/
def parse_dict (toks tys : List String) (fuel : Nat) (token_passed : String) (s : PState)
    (node_name : String) : Except PErr (PState × Node × Node) :=
  match fuel with
  | 0 => .error .outOfFuel
  | f + 1 =>
    let node : Node := .mk "dict" false [.mk "\x7b" true []]
    let ast_node : Node := .mk node_name false []
    if token_passed = "RBRACE" then
      .ok (tryNext tys s, node.add_child (.mk "\x7d" true []), ast_node)
    else
      parse_dict_loop toks tys f token_passed s node ast_node []

/-- One iteration of the `while token_passed == "STRING"` member loop of
`parse_dict`: key validation, the colon, the value dispatch, then the
separator step.  In the `KEYWORD` value branch the Python folds the stale
`node_val` — still the key's lexeme — into the AST label. -/
def parse_dict_loop (toks tys : List String) (fuel : Nat) (token_passed : String) (s : PState)
    (node ast_node : Node) (keys : List String) : Except PErr (PState × Node × Node) :=
  match fuel with
  | 0 => .error .outOfFuel
  | f + 1 =>
    if token_passed = "STRING" then
      match pyGet toks ((s.idx : Int) - 1) with
      | .error e => .error e
      | .ok node_val =>
        if pyIsspace node_val ∨ node_val = "" then .error (.emptyKey node_val)
        else if node_val ∈ reservedWords then .error (.reservedWordAsKey node_val)
        else if node_val ∈ keys then .error (.duplicateKey node_val)
        else
          let node1 := node.add_child (.mk node_val true [])
          let ast1 := ast_node.add_child (.mk node_val true [])
          let keys1 := keys ++ [node_val]
          match get_next_token tys s with
          | .error e => .error e
          | .ok sca =>
            if sca.cur ≠ "COLON" then .error (.expectedColon sca.cur)
            else
              match get_next_token tys sca with
              | .error e => .error e
              | .ok sv =>
                let node2 := node1.add_child (.mk ":" true [])
                if sv.cur ∈ valueKinds then
                  if sv.cur = "LBRACKET" then
                    match get_next_token tys sv with
                    | .error e => .error e
                    | .ok sv1 =>
                      match popLastChild ast1 with
                      | .error e => .error e
                      | .ok ast2 =>
                        match pyGet toks ((sv1.idx : Int) - 4) with
                        | .error e => .error e
                        | .ok name =>
                          match parse_list toks tys f sv1.cur sv1 name with
                          | .error e => .error e
                          | .ok (s3, cn, ca) =>
                            parse_dict_sep toks tys f s3
                              (node2.add_child cn) (ast2.add_child ca) keys1
                  else if sv.cur = "LBRACE" then
                    match get_next_token tys sv with
                    | .error e => .error e
                    | .ok sv1 =>
                      match popLastChild ast1 with
                      | .error e => .error e
                      | .ok ast2 =>
                        match pyGet toks ((sv1.idx : Int) - 4) with
                        | .error e => .error e
                        | .ok name =>
                          match parse_dict toks tys f sv1.cur sv1 name with
                          | .error e => .error e
                          | .ok (s3, cn, ca) =>
                            parse_dict_sep toks tys f s3
                              (node2.add_child cn) (ast2.add_child ca) keys1
                  else if sv.cur = "STRING" then
                    match pyGet toks ((sv.idx : Int) - 1) with
                    | .error e => .error e
                    | .ok v =>
                      if v ∈ reservedWords then .error (.reservedWordAsString v)
                      else
                        match editLastChild ast1 v with
                        | .error e => .error e
                        | .ok ast2 =>
                          match get_next_token tys sv with
                          | .error e => .error e
                          | .ok s3 =>
                            parse_dict_sep toks tys f s3
                              (node2.add_child (.mk v true [])) ast2 keys1
                  else if sv.cur = "NUMBER" then
                    match pyGet toks ((sv.idx : Int) - 1) with
                    | .error e => .error e
                    | .ok v =>
                      match pyLastChar v with
                      | .error e => .error e
                      | .ok lastC =>
                        match pyFirstChar v with
                        | .error e => .error e
                        | .ok firstC =>
                          if lastC = '.' ∨ firstC = '.' then .error (.invalidDecimal v)
                          else if firstC = '0' ∨ firstC = '+' then .error (.invalidNumber v)
                          else
                            match editLastChild ast1 v with
                            | .error e => .error e
                            | .ok ast2 =>
                              match get_next_token tys sv with
                              | .error e => .error e
                              | .ok s3 =>
                                parse_dict_sep toks tys f s3
                                  (node2.add_child (.mk v true [])) ast2 keys1
                  else
                    match pyGet toks ((sv.idx : Int) - 1) with
                    | .error e => .error e
                    | .ok lex =>
                      match editLastChild ast1 node_val with
                      | .error e => .error e
                      | .ok ast2 =>
                        match get_next_token tys sv with
                        | .error e => .error e
                        | .ok s3 =>
                          parse_dict_sep toks tys f s3
                            (node2.add_child (.mk lex true [])) ast2 keys1
                else .error (.unexpectedValueTypeInDict sv.cur)
    else .error (.unknownTokenInDict token_passed s.idx)

/-- The bottom of `parse_dict`'s loop: after a member, expect a comma
(and loop, carrying the same `keys`) or the closing brace (and return). -/
def parse_dict_sep (toks tys : List String) (fuel : Nat) (s : PState)
    (node ast_node : Node) (keys : List String) : Except PErr (PState × Node × Node) :=
  match fuel with
  | 0 => .error .outOfFuel
  | f + 1 =>
    if s.cur = "COMMA" then
      match get_next_token tys s with
      | .error e => .error e
      | .ok s1 =>
        if s1.cur = "RBRACE" then .error (.commaBeforeEndOfDict s1.idx)
        else
          parse_dict_loop toks tys f s1.cur s1
            (node.add_child (.mk "," true [])) ast_node keys
    else if s.cur = "RBRACE" then
      .ok (tryNext tys s, node.add_child (.mk "\x7d" true []), ast_node)
    else .error (.unexpectedTokenInDict s.cur s.idx)

end

/-- `ParseTree.__init__` plus `ParseTree.parse`: position the cursor on the
first token (an empty `token_types` raises `IndexError` in `__init__`),
dispatch on `LBRACE`/`LBRACKET`, and flag trailing tokens at the end.
Returns the final cursor and the roots of the parse tree and the AST. -/
def ParseTree.parse (d : DFA) : Except PErr (PState × Node × Node) :=
  let toks := d.tokens
  let tys := d.token_types
  match tys.get? 0 with
  | none => .error .indexError
  | some t0 =>
    let sInit : PState := { idx := 1, cur := t0 }
    let fuel := 4 * tys.length + 16
    let res : Except PErr (PState × Node × Node) :=
      if sInit.cur = "LBRACE" then
        match get_next_token tys sInit with
        | .error e => .error e
        | .ok s1 => parse_dict toks tys fuel s1.cur s1 "dict"
      else if sInit.cur = "LBRACKET" then
        match get_next_token tys sInit with
        | .error e => .error e
        | .ok s1 => parse_list toks tys fuel s1.cur s1 "list"
      else .error (.illegalStart sInit.cur)
    match res with
    | .error e => .error e
    | .ok (sf, n, a) =>
      if sf.idx < tys.length then .error .trailingTokens
      else .ok (sf, n, a)

/-! ## The whole pipeline, as driven by src/main.py -/

/-- An error from either stage. -/
inductive RunErr where
  | lex (e : LexErr)
  | parse (e : PErr)
  deriving Repr, DecidableEq

/-- Tokenize with a freshly constructed `DFA`, then parse with a freshly
constructed `ParseTree` (the sequence performed by `main.py`). -/
def run (input : String) : Except RunErr (PState × Node × Node) :=
  match DFA.init.tokenize input with
  | .error e => .error (.lex e)
  | .ok d =>
    match ParseTree.parse d with
    | .error e => .error (.parse e)
    | .ok r => .ok r

/-- The AST root of a successful run. -/
def runAST (input : String) : Option Node :=
  match run input with
  | .ok (_, _, a) => some a
  | _ => none

/-- The parse-tree root of a successful run. -/
def runPT (input : String) : Option Node :=
  match run input with
  | .ok (_, n, _) => some n
  | _ => none

/-- Whether an `Except` computation succeeded. -/
def exOk : Except ε α → Bool
  | .ok _ => true
  | .error _ => false

instance {ε α : Type} [DecidableEq ε] [DecidableEq α] : DecidableEq (Except ε α) := fun a b =>
  match a, b with
  | .ok x, .ok y =>
    match decEq x y with
    | isTrue h => isTrue (by rw [h])
    | isFalse h => isFalse (by intro hc; cases hc; exact h rfl)
  | .error x, .error y =>
    match decEq x y with
    | isTrue h => isTrue (by rw [h])
    | isFalse h => isFalse (by intro hc; cases hc; exact h rfl)
  | .ok _, .error _ => isFalse (by intro hc; cases hc)
  | .error _, .ok _ => isFalse (by intro hc; cases hc)

/-- The error of a failed run, if any. -/
def runErrOf (input : String) : Option RunErr :=
  match run input with
  | .error e => some e
  | .ok _ => none

/-- Number of tokens produced by a fresh tokenizer on `input`. -/
def tokCount (input : String) : Option Nat :=
  match DFA.init.tokenize input with
  | .ok d => some d.tokens.length
  | .error _ => none

/-! ## Concrete inputs used by the theorems below -/

/-- The spec's nested example `{"a":[1,2,3],"b":{"c":"d"}}`. -/
def exNested : String := "\x7b\"a\":[1,2,3],\"b\":\x7b\"c\":\"d\"\x7d\x7d"

/-! ## Tokenized forms of the concrete inputs -/

/-- Tokenized `{"a":0}`. -/
def dZero : DFA :=
  { tokens := ["LBRACE", "STRING:a", "COLON", "NUMBER:0", "RBRACE"],
    token_types := ["LBRACE", "STRING", "COLON", "NUMBER", "RBRACE"] }

/-- Tokenized `{"a":5.}`. -/
def dFiveDot : DFA :=
  { tokens := ["LBRACE", "STRING:a", "COLON", "NUMBER:5.", "RBRACE"],
    token_types := ["LBRACE", "STRING", "COLON", "NUMBER", "RBRACE"] }

/-- Tokenized `["null"]`. -/
def dNullStr : DFA :=
  { tokens := ["LBRACKET", "STRING:null", "RBRACKET"],
    token_types := ["LBRACKET", "STRING", "RBRACKET"] }

/-- Tokenized `{"a":[1,2,3],"b":{"c":"d"}}`. -/
def dNest : DFA :=
  { tokens := ["LBRACE", "STRING:a", "COLON", "LBRACKET", "NUMBER:1", "COMMA",
      "NUMBER:2", "COMMA", "NUMBER:3", "RBRACKET", "COMMA", "STRING:b", "COLON",
      "LBRACE", "STRING:c", "COLON", "STRING:d", "RBRACE", "RBRACE"],
    token_types := ["LBRACE", "STRING", "COLON", "LBRACKET", "NUMBER", "COMMA",
      "NUMBER", "COMMA", "NUMBER", "RBRACKET", "COMMA", "STRING", "COLON",
      "LBRACE", "STRING", "COLON", "STRING", "RBRACE", "RBRACE"] }

/-- Tokenized `{"":1}`. -/
def dEmptyKey : DFA :=
  { tokens := ["LBRACE", "STRING:", "COLON", "NUMBER:1", "RBRACE"],
    token_types := ["LBRACE", "STRING", "COLON", "NUMBER", "RBRACE"] }

/-- Tokenized `{"true":1}`. -/
def dTrueKey : DFA :=
  { tokens := ["LBRACE", "STRING:true", "COLON", "NUMBER:1", "RBRACE"],
    token_types := ["LBRACE", "STRING", "COLON", "NUMBER", "RBRACE"] }

/-- Tokenized `[true,null]`. -/
def dBoolNull : DFA :=
  { tokens := ["LBRACKET", "BOOL:TRUE", "COMMA", "NULL", "RBRACKET"],
    token_types := ["LBRACKET", "KEYWORD", "COMMA", "KEYWORD", "RBRACKET"] }

/-- Tokenized `[1,"two"]`. -/
def dMixed : DFA :=
  { tokens := ["LBRACKET", "NUMBER:1", "COMMA", "STRING:two", "RBRACKET"],
    token_types := ["LBRACKET", "NUMBER", "COMMA", "STRING", "RBRACKET"] }

/-- Tokenized `[[]]`. -/
def dListList : DFA :=
  { tokens := ["LBRACKET", "LBRACKET", "RBRACKET", "RBRACKET"],
    token_types := ["LBRACKET", "LBRACKET", "RBRACKET", "RBRACKET"] }

/-- Tokenized `{}]`. -/
def dTrailOne : DFA :=
  { tokens := ["LBRACE", "RBRACE", "RBRACKET"],
    token_types := ["LBRACE", "RBRACE", "RBRACKET"] }

/-- Tokenized `{"a":1,"a":2}`. -/
def dDup : DFA :=
  { tokens := ["LBRACE", "STRING:a", "COLON", "NUMBER:1", "COMMA", "STRING:a",
      "COLON", "NUMBER:2", "RBRACE"],
    token_types := ["LBRACE", "STRING", "COLON", "NUMBER", "COMMA", "STRING",
      "COLON", "NUMBER", "RBRACE"] }

/-- Tokenized `{"a":1,"b":{"a":2}}`. -/
def dDupNested : DFA :=
  { tokens := ["LBRACE", "STRING:a", "COLON", "NUMBER:1", "COMMA", "STRING:b",
      "COLON", "LBRACE", "STRING:a", "COLON", "NUMBER:2", "RBRACE", "RBRACE"],
    token_types := ["LBRACE", "STRING", "COLON", "NUMBER", "COMMA", "STRING",
      "COLON", "LBRACE", "STRING", "COLON", "NUMBER", "RBRACE", "RBRACE"] }

/-- Tokenized `{"x":{"a":1},"y":{"a":2}}`. -/
def dDupSibling : DFA :=
  { tokens := ["LBRACE", "STRING:x", "COLON", "LBRACE", "STRING:a", "COLON",
      "NUMBER:1", "RBRACE", "COMMA", "STRING:y", "COLON", "LBRACE", "STRING:a",
      "COLON", "NUMBER:2", "RBRACE", "RBRACE"],
    token_types := ["LBRACE", "STRING", "COLON", "LBRACE", "STRING", "COLON",
      "NUMBER", "RBRACE", "COMMA", "STRING", "COLON", "LBRACE", "STRING",
      "COLON", "NUMBER", "RBRACE", "RBRACE"] }

/-- Tokenized `{"a":{}}`. -/
def dInnerEmpty : DFA :=
  { tokens := ["LBRACE", "STRING:a", "COLON", "LBRACE", "RBRACE", "RBRACE"],
    token_types := ["LBRACE", "STRING", "COLON", "LBRACE", "RBRACE", "RBRACE"] }

/-- Tokenized `{}`. -/
def dEmptyObj : DFA :=
  { tokens := ["LBRACE", "RBRACE"], token_types := ["LBRACE", "RBRACE"] }

/-- Relation between the cursor state at which a container body starts
being parsed (`sIn`, positioned just past the element/member the container
call dispatches on) and the state returned when the container closes
(`sOut`): `close` is the position of the closing token, and `k` counts the
extra parse-tree leaves produced when close probes hit the end of the
input and enclosing containers re-consume the final closing token. -/
def SpanOut (tys : List String) (closeTok : String) (sIn sOut : PState)
    (close k : Nat) : Prop :=
  sIn.idx - 1 ≤ close ∧ close < tys.length ∧ tys.get? close = some closeTok ∧
  1 ≤ sOut.idx ∧ sOut.idx ≤ tys.length ∧ tys.get? (sOut.idx - 1) = some sOut.cur ∧
  ((sOut.idx = close + 2 ∧ k = 0) ∨ (sOut.idx = close + 1 ∧ close + 1 = tys.length))

/-! Bridge lemmas splitting a `run` into its tokenize and parse stages, so
that concrete evaluations can be carried out stage by stage. -/

/-- Whether parsing a tokenized document succeeds. -/
def parseOkB (d : DFA) : Bool := exOk (ParseTree.parse d)

/-- The parser error on a tokenized document, if any. -/
def parseErrOf (d : DFA) : Option PErr :=
  match ParseTree.parse d with
  | .error e => some e
  | .ok _ => none

/-- The AST produced from a tokenized document, if parsing succeeds. -/
def parseASTOf (d : DFA) : Option Node :=
  match ParseTree.parse d with
  | .ok (_, _, a) => some a
  | .error _ => none

/-- The parse tree produced from a tokenized document, if parsing
succeeds. -/
def parsePTOf (d : DFA) : Option Node :=
  match ParseTree.parse d with
  | .ok (_, n, _) => some n
  | .error _ => none
/-- Offset between the `token_types` and `tokens` list lengths while the
tokenizer sits in state `st`: the kind is recorded when a `STRING`,
`NUMBER` or `KEYWORD` token starts, the lexeme only when it ends. -/
def stOff : LexState → Nat
  | .s0 => 0
  | .str _ => 1
  | .strEsc _ => 1
  | .num _ => 1
  | .kw _ => 1

/-- Tokenized `\x7b\x7d][`. -/
def dTrailTwo : DFA :=
  { tokens := ["LBRACE", "RBRACE", "RBRACKET", "LBRACKET"],
    token_types := ["LBRACE", "RBRACE", "RBRACKET", "LBRACKET"] }

theorem exOk_run_eq (input : String) (d : DFA) (h : DFA.init.tokenize input = .ok d) :
    exOk (run input) = parseOkB d := by
  unfold run parseOkB
  rw [h]
  cases hp : ParseTree.parse d <;> simp [hp, exOk]

theorem runErrOf_eq (input : String) (d : DFA) (h : DFA.init.tokenize input = .ok d) :
    runErrOf input = (parseErrOf d).map RunErr.parse := by
  unfold runErrOf run parseErrOf
  rw [h]
  cases hp : ParseTree.parse d <;> simp [hp]

theorem runAST_eq (input : String) (d : DFA) (h : DFA.init.tokenize input = .ok d) :
    runAST input = parseASTOf d := by
  unfold runAST run parseASTOf
  rw [h]
  cases hp : ParseTree.parse d with
  | error e => simp [hp]
  | ok r => rcases r with ⟨s, n, a⟩; simp [hp]

theorem runPT_eq (input : String) (d : DFA) (h : DFA.init.tokenize input = .ok d) :
    runPT input = parsePTOf d := by
  unfold runPT run parsePTOf
  rw [h]
  cases hp : ParseTree.parse d with
  | error e => simp [hp]
  | ok r => rcases r with ⟨s, n, a⟩; simp [hp]

set_option maxHeartbeats 1000000

/-! ## Claim C2: numeric-literal format rules -/

/-- C2 (code bug): the spec says `{"a":0}` and `{"a":+1}` fail with
`InvalidNumberLeadingChar` and `{"a":.5}`, `{"a":5.}` fail with
`InvalidDecimal`.  The parser's leading-character check is performed on the
lexeme `"NUMBER:..."`, whose first character is always `N`, so it can never
fire: `{"a":0}` parses successfully.  `{"a":+1}` and `{"a":.5}` never reach
the parser: the tokenizer rejects `+` and `.` at top level with
`UnexpectedCharacter`.  Only the trailing-dot case behaves as claimed:
`{"a":5.}` fails with the `InvalidDecimal` error. -/
theorem C2_theorem :
    exOk (run "\x7b\"a\":0\x7d") = true ∧
    runErrOf "\x7b\"a\":+1\x7d" = some (.lex (.unexpectedCharacter 5 '+')) ∧
    runErrOf "\x7b\"a\":.5\x7d" = some (.lex (.unexpectedCharacter 5 '.')) ∧
    runErrOf "\x7b\"a\":5.\x7d" = some (.parse (.invalidDecimal "NUMBER:5.")) := by
  have h0 : DFA.init.tokenize "\x7b\"a\":0\x7d" = .ok dZero := by decide
  have h5 : DFA.init.tokenize "\x7b\"a\":5.\x7d" = .ok dFiveDot := by decide
  refine ⟨?_, by decide, by decide, ?_⟩
  · rw [exOk_run_eq _ _ h0]; decide
  · rw [runErrOf_eq _ _ h5]; decide

/-! ## Claim C3: reserved words as string values -/

/-- C3 (code bug): the spec says a quoted `"null"` used as a bare value
fails with `ReservedWordAsString`.  The check compares the lexeme
`"STRING:null"` against `["true", "false", "null"]`, so it can never fire:
`["null"]` parses successfully, with the string appended as an AST leaf. -/
theorem C3_theorem :
    exOk (run "[\"null\"]") = true ∧
    ((runAST "[\"null\"]").bind (fun n => childAt n 0)).map Node.label = some "STRING:null" := by
  have h : DFA.init.tokenize "[\"null\"]" = .ok dNullStr := by decide
  refine ⟨?_, ?_⟩
  · rw [exOk_run_eq _ _ h]; decide
  · rw [runAST_eq _ _ h]; decide

/-! ## Claim C7: empty and reserved object keys -/

/-- C7 (code bug): the spec says `{"":1}` fails with `EmptyKey` and
`{"true":1}` fails with `ReservedWordAsKey`.  Both checks run on the
prefixed lexeme (`"STRING:"`, `"STRING:true"`), which is never empty,
never whitespace-only and never equal to a reserved word, so both parse
successfully. -/
theorem C7_theorem :
    exOk (run "\x7b\"\":1\x7d") = true ∧
    ((runAST "\x7b\"\":1\x7d").bind (fun n => childAt n 0)).map Node.label
      = some "STRING: : NUMBER:1" ∧
    exOk (run "\x7b\"true\":1\x7d") = true := by
  have h1 : DFA.init.tokenize "\x7b\"\":1\x7d" = .ok dEmptyKey := by decide
  have h2 : DFA.init.tokenize "\x7b\"true\":1\x7d" = .ok dTrueKey := by decide
  refine ⟨?_, ?_, ?_⟩
  · rw [exOk_run_eq _ _ h1]; decide
  · rw [runAST_eq _ _ h1]; decide
  · rw [exOk_run_eq _ _ h2]; decide

/-! ## Claim C1: folding of scalar members into single AST nodes -/

/-- C1 (counterexample): parsing `{"a":[1,2,3],"b":{"c":"d"}}` succeeds,
but the nested object's single AST member node is labelled
`"STRING:c : STRING:d"` — the lexemes carry their `KIND:` prefixes — and
not `"c : d"` as the claim states. -/
theorem C1_counterexample :
    exOk (run exNested) = true ∧
    (((runAST exNested).bind (fun n => childAt n 1)).bind (fun n => childAt n 0)).map Node.label
      = some "STRING:c : STRING:d" ∧
    (((runAST exNested).bind (fun n => childAt n 1)).bind (fun n => childAt n 0)).map Node.label
      ≠ some "c : d" := by
  have h : DFA.init.tokenize exNested = .ok dNest := by decide
  have h2 : (((runAST exNested).bind (fun n => childAt n 1)).bind
      (fun n => childAt n 0)).map Node.label = some "STRING:c : STRING:d" := by
    rw [runAST_eq _ _ h]; decide
  refine ⟨?_, h2, ?_⟩
  · rw [exOk_run_eq _ _ h]; decide
  · rw [h2]; decide

/-! ## Claim C4: the speculative-leaf pop -/

/-- C4 (counterexample): the claim says the AST pop before recursing into
a nested container never fails.  In `parse_list` nothing has been appended
for the element when the pop runs: on `[[]]` the pop hits an empty child
list and the parse fails with the modelled `IndexError`. -/
theorem C4_counterexample :
    runErrOf "[[]]" = some (.parse .indexError) := by
  have h : DFA.init.tokenize "[[]]" = .ok dListList := by decide
  rw [runErrOf_eq _ _ h]; decide

/-! ## Claim C5: homogeneous list typing -/

/-- C5 (counterexample): the claim says booleans and null have distinct
kinds and that `[true,null]` therefore fails with `InconsistentListType`.
The tokenizer gives both `true` and `null` the same kind `KEYWORD`, and
`[true,null]` parses successfully. -/
theorem C5_counterexample :
    DFA.init.tokenize "[true,null]" = .ok dBoolNull ∧
    dBoolNull.token_types = ["LBRACKET", "KEYWORD", "COMMA", "KEYWORD", "RBRACKET"] ∧
    exOk (run "[true,null]") = true := by
  have h : DFA.init.tokenize "[true,null]" = .ok dBoolNull := by decide
  refine ⟨h, by decide, ?_⟩
  rw [exOk_run_eq _ _ h]; decide

/-! ## Claim C6: trailing tokens -/

/-- C6 (counterexample): the claim says any positive number of unconsumed
trailing tokens — including exactly one — raises `TrailingTokens`.  On
`{}]` the tokenizer produces three tokens, the top-level object consumes
the first two, one token remains, and the parse nevertheless succeeds:
the closing brace's end-of-file probe consumes the trailing token before
the `current_token_index < len(token_types)` test. -/
theorem C6_counterexample :
    DFA.init.tokenize "\x7b\x7d]" = .ok dTrailOne ∧
    dTrailOne.token_types.length = 3 ∧
    exOk (run "\x7b\x7d]") = true := by
  have h : DFA.init.tokenize "\x7b\x7d]" = .ok dTrailOne := by decide
  refine ⟨h, by decide, ?_⟩
  rw [exOk_run_eq _ _ h]; decide

/-! ## Claim C9: leaf counts and punctuation -/

/-- C9 (counterexample): the claim says every successful parse yields a
parse tree with exactly one leaf per token produced by the tokenizer.  On
`{}]` the tokenizer produces three tokens, the parse succeeds, and the
parse tree has only two leaves. -/
theorem C9_counterexample :
    tokCount "\x7b\x7d]" = some 3 ∧
    exOk (run "\x7b\x7d]") = true ∧
    (runPT "\x7b\x7d]").map Node.leafCount = some 2 := by
  have h : DFA.init.tokenize "\x7b\x7d]" = .ok dTrailOne := by decide
  refine ⟨?_, ?_, ?_⟩
  · unfold tokCount; rw [h]; decide
  · rw [exOk_run_eq _ _ h]; decide
  · rw [runPT_eq _ _ h]; decide

/-! ## Helper lemmas about the tree-mutation primitives -/

/-- Popping right after an append undoes exactly that append. -/
theorem popLastChild_add_child (n c : Node) : popLastChild (n.add_child c) = .ok n := by
  cases n with
  | mk l b cs =>
    simp [Node.add_child, popLastChild]

/-- Editing the last child right after an append rewrites exactly the
appended child's label. -/
theorem editLastChild_add_child (n c : Node) (v : String) :
    editLastChild (n.add_child c) v
      = .ok (n.add_child (Node.mk (c.label ++ " : " ++ v) c.isLeafFlag c.children)) := by
  cases n with
  | mk l b cs =>
    simp [Node.add_child, editLastChild]

/-! ## Claim C10: determinism of independent runs -/

/-- C10: two independent runs on the same input — each with a freshly
constructed tokenizer (`DFA.init`) and parser — produce structurally
identical parse trees and ASTs. -/
theorem C10_theorem (input : String) (r₁ r₂ : PState × Node × Node)
    (h₁ : run input = .ok r₁) (h₂ : run input = .ok r₂) :
    r₁.2.1 = r₂.2.1 ∧ r₁.2.2 = r₂.2.2 := by
  rw [h₁] at h₂
  have h := Except.ok.inj h₂
  subst h
  exact ⟨rfl, rfl⟩

/-- C10 witness: the two runs on `{}` yield the same concrete trees. -/
theorem C10_witness :
    (Node.mk "dict" false [Node.mk "\x7b" true [], Node.mk "\x7d" true []],
      (Node.mk "dict" false [] : Node)).1
      = (Node.mk "dict" false [Node.mk "\x7b" true [], Node.mk "\x7d" true []],
      (Node.mk "dict" false [] : Node)).1 ∧
    (Node.mk "dict" false [Node.mk "\x7b" true [], Node.mk "\x7d" true []],
      (Node.mk "dict" false [] : Node)).2
      = (Node.mk "dict" false [Node.mk "\x7b" true [], Node.mk "\x7d" true []],
      (Node.mk "dict" false [] : Node)).2 :=
  C10_theorem "\x7b\x7d"
    ({ idx := 2, cur := "RBRACE" },
      Node.mk "dict" false [Node.mk "\x7b" true [], Node.mk "\x7d" true []],
      Node.mk "dict" false [])
    ({ idx := 2, cur := "RBRACE" },
      Node.mk "dict" false [Node.mk "\x7b" true [], Node.mk "\x7d" true []],
      Node.mk "dict" false [])
    rfl rfl

/-! ## Claim C8: duplicate keys and per-object key scopes -/

/-- C8: a member key equal to a key already seen in the same object fails
with the duplicate-key error — stated for an arbitrary parser state, for
the loop that processes one object's members — while the `keys` list is
created empty on entering each object (`parse_dict` hands `[]` to its
member loop), so keys repeated across nested or sibling object scopes do
not fail, as the two concrete runs show.  `{"a":1,"a":2}` fails with
`DuplicateKey` on the lexeme `"STRING:a"`. -/
theorem C8_theorem :
    (∀ (toks tys : List String) (fuel : Nat) (s : PState) (node ast : Node)
        (keys : List String) (k : String),
        pyGet toks ((s.idx : Int) - 1) = .ok k →
        pyIsspace k = false → k ≠ "" → k ∉ reservedWords → k ∈ keys →
        parse_dict_loop toks tys (fuel + 1) "STRING" s node ast keys
          = .error (.duplicateKey k)) ∧
    (∀ (toks tys : List String) (fuel : Nat) (tp : String) (s : PState) (name : String),
        tp ≠ "RBRACE" →
        parse_dict toks tys (fuel + 1) tp s name
          = parse_dict_loop toks tys fuel tp s
              (Node.mk "dict" false [Node.mk "\x7b" true []]) (Node.mk name false []) []) ∧
    runErrOf "\x7b\"a\":1,\"a\":2\x7d" = some (.parse (.duplicateKey "STRING:a")) ∧
    exOk (run "\x7b\"a\":1,\"b\":\x7b\"a\":2\x7d\x7d") = true ∧
    exOk (run "\x7b\"x\":\x7b\"a\":1\x7d,\"y\":\x7b\"a\":2\x7d\x7d") = true := by
  refine ⟨?_, ?_, ?_, ?_, ?_⟩
  · intro toks tys fuel s node ast keys k hk hsp hne hres hmem
    have hempty : ¬(pyIsspace k = true ∨ k = "") := by simp [hsp, hne]
    simp only [parse_dict_loop, hk]
    rw [if_neg hempty, if_neg hres, if_pos hmem, if_pos trivial]
  · intro toks tys fuel tp s name hne
    simp only [parse_dict]
    rw [if_neg hne]
  · have h : DFA.init.tokenize "\x7b\"a\":1,\"a\":2\x7d" = .ok dDup := by decide
    rw [runErrOf_eq _ _ h]; decide
  · have h : DFA.init.tokenize "\x7b\"a\":1,\"b\":\x7b\"a\":2\x7d\x7d" = .ok dDupNested := by
      decide
    rw [exOk_run_eq _ _ h]; decide
  · have h : DFA.init.tokenize "\x7b\"x\":\x7b\"a\":1\x7d,\"y\":\x7b\"a\":2\x7d\x7d"
        = .ok dDupSibling := by decide
    rw [exOk_run_eq _ _ h]; decide

/-- C8 witness: the duplicate-key rule applied at the second `"a"` key of
`{"a":1,"a":2}`. -/
theorem C8_witness :
    parse_dict_loop dDup.tokens dDup.token_types 1 "STRING" { idx := 6, cur := "STRING" }
      (Node.mk "dict" false []) (Node.mk "dict" false []) ["STRING:a"]
      = .error (.duplicateKey "STRING:a") :=
  C8_theorem.1 dDup.tokens dDup.token_types 0 { idx := 6, cur := "STRING" }
    (Node.mk "dict" false []) (Node.mk "dict" false []) ["STRING:a"] "STRING:a"
    (by decide) (by decide) (by decide) (by decide) (by decide)

/-- C5 (amended): the token kinds are `STRING`, `NUMBER`, `KEYWORD`,
`LBRACKET`, `LBRACE`, where booleans and null share the single kind
`KEYWORD`.  The kind of an array's first element fixes the kind required
of every later element: at any parser state, an element whose kind is in
the value-kind list but differs from `current_type` fails with
`InconsistentListType` on the current lexeme.  `[1,"two"]` fails that way;
`[true,null]` parses successfully because both elements are `KEYWORD`. -/
theorem C5_amended :
    (∀ (toks tys : List String) (fuel : Nat) (ct tp : String) (s : PState)
        (node ast : Node) (lex : String),
        tp ∈ valueKinds → ct ≠ tp →
        pyGet toks ((s.idx : Int) - 1) = .ok lex →
        parse_list_loop toks tys (fuel + 1) ct tp s node ast
          = .error (.inconsistentListType lex)) ∧
    runErrOf "[1,\"two\"]" = some (.parse (.inconsistentListType "STRING:two")) ∧
    exOk (run "[true,null]") = true := by
  refine ⟨?_, ?_, ?_⟩
  · intro toks tys fuel ct tp s node ast lex hmem hne hlex
    simp only [parse_list_loop, hlex]
    rw [if_pos hmem, if_pos hne]
  · have h : DFA.init.tokenize "[1,\"two\"]" = .ok dMixed := by decide
    rw [runErrOf_eq _ _ h]; decide
  · have h : DFA.init.tokenize "[true,null]" = .ok dBoolNull := by decide
    rw [exOk_run_eq _ _ h]; decide

/-- C5 witness: the homogeneity rule applied at the `"two"` element of
`[1,"two"]`. -/
theorem C5_witness :
    parse_list_loop dMixed.tokens dMixed.token_types 1 "NUMBER" "STRING"
      { idx := 4, cur := "STRING" } (Node.mk "list" false []) (Node.mk "list" false [])
      = .error (.inconsistentListType "STRING:two") :=
  C5_amended.1 dMixed.tokens dMixed.token_types 0 "NUMBER" "STRING"
    { idx := 4, cur := "STRING" } (Node.mk "list" false []) (Node.mk "list" false [])
    "STRING:two" (by decide) (by decide) (by decide)

/-- C4 (amended): only in `parse_dict` is the popped AST child the leaf
just appended for the member — `popLastChild` after `add_child` returns
exactly the original node, so nothing else is discarded, and `{"a":{}}`
parses with the key leaf replaced by the nested container node.  In
`parse_list` no leaf has been appended for the element when the pop runs,
so recursing into a container as a list element always fails: with any
fuel, state and context, `parse_list` on an `LBRACKET`/`LBRACE` element
returns either the modelled `IndexError` (the pop on the empty child
list) or `MissingEndOfFile` (when the cursor cannot even advance). -/
theorem C4_amended :
    (∀ (toks tys : List String) (fuel : Nat) (tp : String) (s : PState) (name : String),
        tp = "LBRACKET" ∨ tp = "LBRACE" →
        parse_list toks tys (fuel + 2) tp s name = .error .missingEndOfFile ∨
        parse_list toks tys (fuel + 2) tp s name = .error .indexError) ∧
    (∀ (n c : Node), popLastChild (n.add_child c) = .ok n) ∧
    exOk (run "\x7b\"a\":\x7b\x7d\x7d") = true ∧
    ((runAST "\x7b\"a\":\x7b\x7d\x7d").map (fun n => n.children.map Node.label))
      = some ["STRING:a"] ∧
    (((runAST "\x7b\"a\":\x7b\x7d\x7d").bind (fun n => childAt n 0)).map Node.isLeafFlag)
      = some false := by
  have h : DFA.init.tokenize "\x7b\"a\":\x7b\x7d\x7d" = .ok dInnerEmpty := by decide
  refine ⟨?_, popLastChild_add_child, ?_, ?_, ?_⟩
  · intro toks tys fuel tp s name htp
    have hne : tp ≠ "RBRACKET" := by
      rcases htp with h' | h' <;> simp [h']
    simp only [parse_list]
    rw [if_neg hne]
    rcases htp with h' | h' <;> subst h'
    · simp only [parse_list_loop]
      rw [if_pos (by decide : ("LBRACKET" : String) ∈ valueKinds),
        if_neg (by simp : ¬("LBRACKET" : String) ≠ "LBRACKET")]
      cases hg : get_next_token tys s with
      | error e =>
        left
        simp only [hg]
        have he : e = PErr.missingEndOfFile := by
          unfold get_next_token at hg
          cases hgg : tys.get? s.idx <;> rw [hgg] at hg <;> simp_all
        simp [he]
      | ok s1 =>
        right
        simp only [hg]
        simp [popLastChild]
    · simp only [parse_list_loop]
      rw [if_pos (by decide : ("LBRACE" : String) ∈ valueKinds),
        if_neg (by simp : ¬("LBRACE" : String) ≠ "LBRACE")]
      cases hg : get_next_token tys s with
      | error e =>
        left
        simp only [hg]
        have he : e = PErr.missingEndOfFile := by
          unfold get_next_token at hg
          cases hgg : tys.get? s.idx <;> rw [hgg] at hg <;> simp_all
        simp [he]
      | ok s1 =>
        right
        simp only [hg]
        simp [popLastChild]
  · rw [exOk_run_eq _ _ h]; decide
  · rw [runAST_eq _ _ h]; decide
  · rw [runAST_eq _ _ h]; decide

/-- C4 witness: a nested list as the first element of a list — the input
`[[]]` — hits the failing pop. -/
theorem C4_witness :
    parse_list dListList.tokens dListList.token_types 2 "LBRACKET"
      { idx := 2, cur := "LBRACKET" } "list" = .error .missingEndOfFile ∨
    parse_list dListList.tokens dListList.token_types 2 "LBRACKET"
      { idx := 2, cur := "LBRACKET" } "list" = .error .indexError :=
  C4_amended.1 dListList.tokens dListList.token_types 0 "LBRACKET"
    { idx := 2, cur := "LBRACKET" } "list" (Or.inl rfl)

/-- C1 (amended): for an object member whose value is a scalar, the AST
gains exactly one node for the member.  Its label is built from the full
lexemes (which carry their `KIND:` prefixes): for a `STRING` or `NUMBER`
value the label is `<key lexeme> ++ " : " ++ <value lexeme>`; for a
`KEYWORD` (`BOOL`/`NULL`) value the code appends the stale `node_val` —
still the key's lexeme — so the label is
`<key lexeme> ++ " : " ++ <key lexeme>`.  Stated for one member-processing
step of `parse_dict`'s loop at an arbitrary parser state, for a member
closed by the object's closing brace; the first part covers `STRING`
values, the second covers `KEYWORD` values. -/
theorem C1_amended :
    (∀ (toks tys : List String) (fuel : Nat) (s sca sv s3 : PState)
        (node ast : Node) (keys : List String) (key v : String),
        pyGet toks ((s.idx : Int) - 1) = .ok key →
        pyIsspace key = false → key ≠ "" → key ∉ reservedWords → key ∉ keys →
        get_next_token tys s = .ok sca → sca.cur = "COLON" →
        get_next_token tys sca = .ok sv → sv.cur = "STRING" →
        pyGet toks ((sv.idx : Int) - 1) = .ok v → v ∉ reservedWords →
        get_next_token tys sv = .ok s3 → s3.cur = "RBRACE" →
        parse_dict_loop toks tys (fuel + 2) "STRING" s node ast keys
          = .ok (tryNext tys s3,
              (((node.add_child (Node.mk key true [])).add_child
                  (Node.mk ":" true [])).add_child
                (Node.mk v true [])).add_child (Node.mk "\x7d" true []),
              ast.add_child (Node.mk (key ++ " : " ++ v) true []))) ∧
    (∀ (toks tys : List String) (fuel : Nat) (s sca sv s3 : PState)
        (node ast : Node) (keys : List String) (key lex : String),
        pyGet toks ((s.idx : Int) - 1) = .ok key →
        pyIsspace key = false → key ≠ "" → key ∉ reservedWords → key ∉ keys →
        get_next_token tys s = .ok sca → sca.cur = "COLON" →
        get_next_token tys sca = .ok sv → sv.cur = "KEYWORD" →
        pyGet toks ((sv.idx : Int) - 1) = .ok lex →
        get_next_token tys sv = .ok s3 → s3.cur = "RBRACE" →
        parse_dict_loop toks tys (fuel + 2) "KEYWORD" s node ast keys
          = .error (.unknownTokenInDict "KEYWORD" s.idx) ∧
        parse_dict_loop toks tys (fuel + 2) "STRING" s node ast keys
          = .ok (tryNext tys s3,
              (((node.add_child (Node.mk key true [])).add_child
                  (Node.mk ":" true [])).add_child
                (Node.mk lex true [])).add_child (Node.mk "\x7d" true []),
              ast.add_child (Node.mk (key ++ " : " ++ key) true []))) := by
  constructor
  · intro toks tys fuel s sca sv s3 node ast keys key v
      hkey hsp hne hres hkeys h1 hcol h2 hsv hv hvres h3 hclose
    have hempty : ¬(pyIsspace key = true ∨ key = "") := by simp [hsp, hne]
    have hncol : ¬(sca.cur ≠ "COLON") := by simp [hcol]
    have hnclose : ¬(s3.cur = "COMMA") := by simp [hclose]
    simp only [parse_dict_loop, hkey]
    rw [if_neg hempty, if_neg hres, if_neg hkeys]
    simp only [h1]
    rw [if_neg hncol]
    simp only [h2]
    rw [hsv]
    rw [if_pos (by decide : ("STRING" : String) ∈ valueKinds)]
    rw [if_neg (by decide : ¬("STRING" : String) = "LBRACKET")]
    rw [if_neg (by decide : ¬("STRING" : String) = "LBRACE")]
    rw [if_pos (rfl : ("STRING" : String) = "STRING")]
    simp only [hv]
    rw [if_neg hvres]
    rw [editLastChild_add_child]
    simp only [Node.label, Node.isLeafFlag, Node.children, h3]
    simp only [parse_dict_sep]
    rw [if_neg hnclose, if_pos hclose, if_pos trivial]
  · intro toks tys fuel s sca sv s3 node ast keys key lex
      hkey hsp hne hres hkeys h1 hcol h2 hsv hlex h3 hclose
    have hempty : ¬(pyIsspace key = true ∨ key = "") := by simp [hsp, hne]
    have hncol : ¬(sca.cur ≠ "COLON") := by simp [hcol]
    have hnclose : ¬(s3.cur = "COMMA") := by simp [hclose]
    constructor
    · simp only [parse_dict_loop]
      rw [if_neg (by decide : ¬("KEYWORD" : String) = "STRING")]
    · simp only [parse_dict_loop, hkey]
      rw [if_neg hempty, if_neg hres, if_neg hkeys]
      simp only [h1]
      rw [if_neg hncol]
      simp only [h2]
      rw [hsv]
      rw [if_pos (by decide : ("KEYWORD" : String) ∈ valueKinds)]
      rw [if_neg (by decide : ¬("KEYWORD" : String) = "LBRACKET")]
      rw [if_neg (by decide : ¬("KEYWORD" : String) = "LBRACE")]
      rw [if_neg (by decide : ¬("KEYWORD" : String) = "STRING")]
      rw [if_neg (by decide : ¬("KEYWORD" : String) = "NUMBER")]
      simp only [hlex]
      rw [editLastChild_add_child]
      simp only [Node.label, Node.isLeafFlag, Node.children, h3]
      simp only [parse_dict_sep]
      rw [if_neg hnclose, if_pos hclose, if_pos trivial]

/-- C1 witness: one member step on the tokens of `{"k":"v"}` and one on
the tokens of `{"a":true}`, at their key positions. -/
theorem C1_witness :
    parse_dict_loop ["LBRACE", "STRING:k", "COLON", "STRING:v", "RBRACE"]
      ["LBRACE", "STRING", "COLON", "STRING", "RBRACE"] 2 "STRING"
      { idx := 2, cur := "STRING" } (Node.mk "dict" false [Node.mk "\x7b" true []])
      (Node.mk "dict" false []) []
      = .ok (tryNext ["LBRACE", "STRING", "COLON", "STRING", "RBRACE"]
          { idx := 5, cur := "RBRACE" },
          ((((Node.mk "dict" false [Node.mk "\x7b" true []]).add_child
              (Node.mk "STRING:k" true [])).add_child
            (Node.mk ":" true [])).add_child
            (Node.mk "STRING:v" true [])).add_child (Node.mk "\x7d" true []),
          (Node.mk "dict" false []).add_child
            (Node.mk ("STRING:k" ++ " : " ++ "STRING:v") true [])) :=
  C1_amended.1 ["LBRACE", "STRING:k", "COLON", "STRING:v", "RBRACE"]
    ["LBRACE", "STRING", "COLON", "STRING", "RBRACE"] 0
    { idx := 2, cur := "STRING" } { idx := 3, cur := "COLON" }
    { idx := 4, cur := "STRING" } { idx := 5, cur := "RBRACE" }
    (Node.mk "dict" false [Node.mk "\x7b" true []]) (Node.mk "dict" false []) []
    "STRING:k" "STRING:v"
    (by decide) (by decide) (by decide) (by decide) (by decide)
    (by decide) (by decide) (by decide) (by decide) (by decide)
    (by decide) (by decide) (by decide)

/-! ## Small lemmas used by the cursor/leaf-count invariant -/

theorem get_next_token_ok {tys : List String} {s s' : PState}
    (h : get_next_token tys s = .ok s') :
    s'.idx = s.idx + 1 ∧ tys.get? s.idx = some s'.cur := by
  unfold get_next_token at h
  cases hg : tys.get? s.idx with
  | none => rw [hg] at h; cases h
  | some t =>
    rw [hg] at h
    cases h
    exact ⟨rfl, by simpa using hg⟩

theorem pyGet_ok_mem {xs : List String} {i : Int} {v : String}
    (h : pyGet xs i = .ok v) : v ∈ xs := by
  by_cases hi : i < 0
  · simp only [pyGet, hi, if_true, if_pos] at h
    by_cases hj : i + (xs.length : Int) < 0
    · rw [if_pos hj] at h
      cases h
    · simp only [hj, if_false] at h
      cases hg : xs.get? (i + (xs.length : Int)).toNat with
      | none => rw [hg] at h; cases h
      | some w =>
        rw [hg] at h
        cases h
        exact List.get?_mem hg
  · simp only [pyGet, hi, if_false] at h
    cases hg : xs.get? i.toNat with
    | none => rw [hg] at h; cases h
    | some w =>
      rw [hg] at h
      cases h
      exact List.get?_mem hg

theorem leafCountL_nil : Node.leafCountL [] = 0 := by rw [Node.leafCountL]

theorem leafCountL_cons (n : Node) (ns : List Node) :
    Node.leafCountL (n :: ns) = n.leafCount + Node.leafCountL ns := by
  rw [Node.leafCountL]

theorem leafCount_mk (l : String) (b : Bool) (cs : List Node) :
    (Node.mk l b cs).leafCount = (if b then 1 else 0) + Node.leafCountL cs := by
  rw [Node.leafCount]

theorem labelsLongL_nil : Node.labelsLongL [] = true := by rw [Node.labelsLongL]

theorem labelsLongL_cons (n : Node) (ns : List Node) :
    Node.labelsLongL (n :: ns) = (n.labelsLong && Node.labelsLongL ns) := by
  rw [Node.labelsLongL]

theorem labelsLong_mk (l : String) (b : Bool) (cs : List Node) :
    (Node.mk l b cs).labelsLong = (decide (4 ≤ l.length) && Node.labelsLongL cs) := by
  rw [Node.labelsLong]

theorem leafCountL_append (cs : List Node) (c : Node) :
    Node.leafCountL (cs ++ [c]) = Node.leafCountL cs + Node.leafCount c := by
  induction cs with
  | nil => simp [leafCountL_nil, leafCountL_cons]
  | cons x xs ih =>
    rw [List.cons_append, leafCountL_cons, leafCountL_cons, ih]
    omega

theorem leafCount_add_child (n c : Node) :
    (n.add_child c).leafCount = n.leafCount + c.leafCount := by
  cases n with
  | mk l b cs =>
    rw [Node.add_child, leafCount_mk, leafCount_mk, leafCountL_append]
    omega

theorem leafCount_leaf (l : String) : (Node.mk l true []).leafCount = 1 := by
  rw [leafCount_mk, leafCountL_nil]
  simp

theorem leafCount_interior (l : String) : (Node.mk l false []).leafCount = 0 := by
  rw [leafCount_mk, leafCountL_nil]
  simp

theorem labelsLongL_append (cs : List Node) (c : Node) :
    Node.labelsLongL (cs ++ [c]) = (Node.labelsLongL cs && Node.labelsLong c) := by
  induction cs with
  | nil => simp [labelsLongL_nil, labelsLongL_cons]
  | cons x xs ih =>
    rw [List.cons_append, labelsLongL_cons, labelsLongL_cons, ih, Bool.and_assoc]

theorem labelsLong_add_child {n c : Node} (hn : n.labelsLong = true)
    (hc : c.labelsLong = true) : (n.add_child c).labelsLong = true := by
  cases n with
  | mk l b cs =>
    rw [labelsLong_mk, Bool.and_eq_true] at hn
    rw [Node.add_child, labelsLong_mk, labelsLongL_append, hn.1, hn.2, hc]
    rfl

theorem labelsLongL_dropLast {cs : List Node} (h : Node.labelsLongL cs = true) :
    Node.labelsLongL cs.dropLast = true := by
  induction cs with
  | nil => exact labelsLongL_nil
  | cons x xs ih =>
    cases xs with
    | nil => exact labelsLongL_nil
    | cons y ys =>
      rw [labelsLongL_cons, Bool.and_eq_true] at h
      rw [List.dropLast_cons_of_ne_nil (List.cons_ne_nil y ys), labelsLongL_cons,
        h.1, ih h.2]
      rfl

theorem labelsLong_popLastChild {n m : Node} (h : popLastChild n = .ok m)
    (hn : n.labelsLong = true) : m.labelsLong = true := by
  cases n with
  | mk l b cs =>
    simp only [popLastChild] at h
    split at h
    · cases h
    · cases h
      rw [labelsLong_mk, Bool.and_eq_true] at hn
      rw [labelsLong_mk, hn.1, labelsLongL_dropLast hn.2]
      rfl

theorem labelsLongL_getLast {cs : List Node} {c : Node} (h : cs.getLast? = some c)
    (hcs : Node.labelsLongL cs = true) : c.labelsLong = true := by
  induction cs with
  | nil => cases h
  | cons x xs ih =>
    cases xs with
    | nil =>
      simp only [List.getLast?_singleton] at h
      cases h
      rw [labelsLongL_cons, Bool.and_eq_true] at hcs
      exact hcs.1
    | cons y ys =>
      rw [List.getLast?_cons_cons] at h
      rw [labelsLongL_cons, Bool.and_eq_true] at hcs
      exact ih h hcs.2

theorem labelsLong_editLastChild {n m : Node} {v : String} (h : editLastChild n v = .ok m)
    (hn : n.labelsLong = true) : m.labelsLong = true := by
  cases n with
  | mk l b cs =>
    simp only [editLastChild] at h
    split at h
    · cases h
    · next c hg =>
      cases h
      rw [labelsLong_mk, Bool.and_eq_true] at hn
      rw [labelsLong_mk, hn.1, labelsLongL_append, labelsLongL_dropLast hn.2]
      have hc : c.labelsLong = true := labelsLongL_getLast hg hn.2
      cases c with
      | mk cl cb ccs =>
        rw [labelsLong_mk, Bool.and_eq_true] at hc
        rw [labelsLong_mk]
        simp only [Node.label, Node.isLeafFlag, Node.children]
        have : 4 ≤ (cl ++ " : " ++ v).length := by
          rw [String.length_append, String.length_append]
          have := hc.1
          simp only [decide_eq_true_eq] at this
          omega
        simp [this, hc.2]
        have hcl : 4 ≤ cl.length := by simpa using hc.1
        have h3 : (" : ").length = 3 := rfl
        omega

theorem labelsLong_leaf {l : String} (h : 4 ≤ l.length) :
    (Node.mk l true []).labelsLong = true := by
  simp [Node.labelsLong, Node.labelsLongL, h]

theorem labelsLong_interior {l : String} (h : 4 ≤ l.length) :
    (Node.mk l false []).labelsLong = true := by
  simp [Node.labelsLong, Node.labelsLongL, h]

theorem tryNext_cases (tys : List String) (s : PState) :
    (∃ t, tys.get? s.idx = some t ∧ tryNext tys s = { idx := s.idx + 1, cur := t }) ∨
    (tys.get? s.idx = none ∧ tryNext tys s = s) := by
  unfold tryNext get_next_token
  cases hg : tys.get? s.idx with
  | none => exact Or.inr ⟨rfl, rfl⟩
  | some t => exact Or.inl ⟨t, rfl, rfl⟩


theorem container_step (delta : Nat) {tys : List String} {closeTok1 closeTok2 : String}
    {s s1 s2 s' : PState} {close1 k1 close2 k2 nlc nodelc cnlc : Nat}
    (hidx1 : s1.idx = s.idx + delta) (hdelta : 1 ≤ delta) (h1 : 1 ≤ s.idx)
    (span1 : SpanOut tys closeTok1 s1 s2 close1 k1)
    (span2 : SpanOut tys closeTok2 s2 s' close2 k2)
    (E1 : cnlc + s1.idx = close1 + 3 + k1)
    (E2 : nlc + s2.idx = nodelc + (delta - 1) + cnlc + close2 + 2 + k2) :
    ∃ K, SpanOut tys closeTok2 s s' close2 K ∧ nlc + s.idx = nodelc + close2 + 2 + K := by
  obtain ⟨a1, a2, a3, a4, a5, a6, a7⟩ := span1
  obtain ⟨b1, b2, b3, b4, b5, b6, b7⟩ := span2
  rcases a7 with ⟨a8, a9⟩ | ⟨a8, a9⟩ <;> rcases b7 with ⟨b8, b9⟩ | ⟨b8, b9⟩
  · exact ⟨k2, ⟨by omega, b2, b3, b4, b5, b6, Or.inl ⟨b8, b9⟩⟩, by omega⟩
  · exact ⟨k2, ⟨by omega, b2, b3, b4, b5, b6, Or.inr ⟨b8, b9⟩⟩, by omega⟩
  · exact absurd b8 (by omega)
  · exact ⟨k1 + k2 + 1, ⟨by omega, b2, b3, b4, b5, b6, Or.inr ⟨b8, b9⟩⟩, by omega⟩

theorem parse_invariants (toks tys : List String) (Htoks : ∀ e ∈ toks, 4 ≤ e.length) :
    ∀ fuel : Nat,
      (∀ tp s name s' n a,
        parse_list toks tys fuel tp s name = .ok (s', n, a) →
        1 ≤ s.idx → s.idx ≤ tys.length → tys.get? (s.idx - 1) = some s.cur →
        tp = s.cur → 4 ≤ name.length →
        ∃ close k, SpanOut tys "RBRACKET" s s' close k ∧
          n.leafCount + s.idx = close + 3 + k ∧ a.labelsLong = true) ∧
      (∀ ct tp s node ast s' n a,
        parse_list_loop toks tys fuel ct tp s node ast = .ok (s', n, a) →
        1 ≤ s.idx → s.idx ≤ tys.length → tys.get? (s.idx - 1) = some s.cur →
        tp = s.cur → tp ≠ "RBRACKET" → ast.labelsLong = true →
        ∃ close k, SpanOut tys "RBRACKET" s s' close k ∧
          n.leafCount + s.idx = node.leafCount + close + 2 + k ∧ a.labelsLong = true) ∧
      (∀ ct s node ast s' n a,
        parse_list_sep toks tys fuel ct s node ast = .ok (s', n, a) →
        1 ≤ s.idx → s.idx ≤ tys.length → tys.get? (s.idx - 1) = some s.cur →
        ast.labelsLong = true →
        ∃ close k, SpanOut tys "RBRACKET" s s' close k ∧
          n.leafCount + s.idx = node.leafCount + close + 2 + k ∧ a.labelsLong = true) ∧
      (∀ tp s name s' n a,
        parse_dict toks tys fuel tp s name = .ok (s', n, a) →
        1 ≤ s.idx → s.idx ≤ tys.length → tys.get? (s.idx - 1) = some s.cur →
        tp = s.cur → 4 ≤ name.length →
        ∃ close k, SpanOut tys "RBRACE" s s' close k ∧
          n.leafCount + s.idx = close + 3 + k ∧ a.labelsLong = true) ∧
      (∀ tp s node ast keys s' n a,
        parse_dict_loop toks tys fuel tp s node ast keys = .ok (s', n, a) →
        1 ≤ s.idx → s.idx ≤ tys.length → tys.get? (s.idx - 1) = some s.cur →
        tp = s.cur → ast.labelsLong = true →
        ∃ close k, SpanOut tys "RBRACE" s s' close k ∧
          n.leafCount + s.idx = node.leafCount + close + 2 + k ∧ a.labelsLong = true) ∧
      (∀ s node ast keys s' n a,
        parse_dict_sep toks tys fuel s node ast keys = .ok (s', n, a) →
        1 ≤ s.idx → s.idx ≤ tys.length → tys.get? (s.idx - 1) = some s.cur →
        ast.labelsLong = true →
        ∃ close k, SpanOut tys "RBRACE" s s' close k ∧
          n.leafCount + s.idx = node.leafCount + close + 2 + k ∧ a.labelsLong = true) := by
  intro fuel
  induction fuel with
  | zero =>
    refine ⟨?_, ?_, ?_, ?_, ?_, ?_⟩
    · intro tp s name s' n a h _ _ _ _ _
      simp [parse_list] at h
    · intro ct tp s node ast s' n a h _ _ _ _ _ _
      simp [parse_list_loop] at h
    · intro ct s node ast s' n a h _ _ _ _
      simp [parse_list_sep] at h
    · intro tp s name s' n a h _ _ _ _ _
      simp [parse_dict] at h
    · intro tp s node ast keys s' n a h _ _ _ _ _
      simp [parse_dict_loop] at h
    · intro s node ast keys s' n a h _ _ _ _
      simp [parse_dict_sep] at h
  | succ f ih =>
    obtain ⟨ihL, ihLL, ihLS, ihD, ihDL, ihDS⟩ := ih
    refine ⟨?_, ?_, ?_, ?_, ?_, ?_⟩
    -- parse_list entry
    · intro tp s name s' n a h h1 h2 hcur htp hname
      have hn0 : (Node.mk "list" false [Node.mk "[" true []]).leafCount = 1 := by
        rw [leafCount_mk, leafCountL_cons, leafCountL_nil, leafCount_leaf]
        simp
      simp only [parse_list] at h
      split at h
      · next hR =>
        cases h
        rw [htp] at hR
        rw [hR] at hcur
        obtain ⟨hlt, -⟩ := List.get?_eq_some.mp hcur
        rcases tryNext_cases tys s with ⟨t, hgt, htn⟩ | ⟨hgt, htn⟩
        · obtain ⟨hlt2, -⟩ := List.get?_eq_some.mp hgt
          refine ⟨s.idx - 1, 0, ⟨by omega, by omega, hcur, ?_, ?_, ?_, ?_⟩, ?_,
            labelsLong_interior hname⟩
          · rw [htn]; (try dsimp only); omega
          · rw [htn]; (try dsimp only); omega
          · rw [htn]; (try dsimp only); simpa using hgt
          · rw [htn]; (try dsimp only); left; constructor <;> omega
          · rw [leafCount_add_child, leafCount_leaf, hn0]; omega
        · have hlen : tys.length ≤ s.idx := List.get?_eq_none.mp hgt
          refine ⟨s.idx - 1, 0, ⟨by omega, by omega, hcur, ?_, ?_, ?_, ?_⟩, ?_,
            labelsLong_interior hname⟩
          · rw [htn]; (try dsimp only); omega
          · rw [htn]; (try dsimp only); omega
          · rw [htn, hR]; exact hcur
          · rw [htn]; (try dsimp only); right; constructor <;> omega
          · rw [leafCount_add_child, leafCount_leaf, hn0]; omega
      · next hR =>
        obtain ⟨close, k, hspan, hleaf, hlab⟩ :=
          ihLL tp tp s (Node.mk "list" false [Node.mk "[" true []])
            (Node.mk name false []) s' n a h h1 h2 hcur htp hR
            (labelsLong_interior hname)
        rw [hn0] at hleaf
        exact ⟨close, k, hspan, by omega, hlab⟩
    -- parse_list_loop
    · intro ct tp s node ast s' n a h h1 h2 hcur htp hne hast
      simp only [parse_list_loop] at h
      split at h
      · next hmem =>
        split at h
        · split at h
          · cases h
          · cases h
        · next hct =>
          split at h
          · next hlb =>
            split at h
            · cases h
            · next s1 hg =>
              split at h
              · cases h
              · next ast1 hpop =>
                split at h
                · cases h
                · next name hpg =>
                  split at h
                  · cases h
                  · next s2 cn ca hrec =>
                    obtain ⟨hidx1, hget1⟩ := get_next_token_ok hg
                    obtain ⟨hlt, -⟩ := List.get?_eq_some.mp hget1
                    have hname4 : 4 ≤ name.length := Htoks _ (pyGet_ok_mem hpg)
                    obtain ⟨close1, k1, span1, E1, lab_ca⟩ :=
                      ihL s1.cur s1 name s2 cn ca hrec (by omega) (by omega)
                        (by rw [hidx1]; simpa using hget1) rfl hname4
                    obtain ⟨close, k2, span2, E2, hlab⟩ :=
                      ihLS ct s2 _ _ s' n a h span1.2.2.2.1 span1.2.2.2.2.1
                        span1.2.2.2.2.2.1
                        (labelsLong_add_child (labelsLong_popLastChild hpop hast) lab_ca)
                    rw [leafCount_add_child] at E2
                    obtain ⟨K, spanK, EK⟩ :=
                      container_step 1 (by omega) (by omega) h1 span1 span2 E1
                        (show n.leafCount + s2.idx
                            = node.leafCount + (1 - 1) + cn.leafCount + close + 2 + k2 by omega)
                    exact ⟨close, K, spanK, EK, hlab⟩
          · split at h
            · next hlb2 =>
              split at h
              · cases h
              · next s1 hg =>
                split at h
                · cases h
                · next ast1 hpop =>
                  split at h
                  · cases h
                  · next name hpg =>
                    split at h
                    · cases h
                    · next s2 cn ca hrec =>
                      obtain ⟨hidx1, hget1⟩ := get_next_token_ok hg
                      obtain ⟨hlt, -⟩ := List.get?_eq_some.mp hget1
                      have hname4 : 4 ≤ name.length := Htoks _ (pyGet_ok_mem hpg)
                      obtain ⟨close1, k1, span1, E1, lab_ca⟩ :=
                        ihD s1.cur s1 name s2 cn ca hrec (by omega) (by omega)
                          (by rw [hidx1]; simpa using hget1) rfl hname4
                      obtain ⟨close, k2, span2, E2, hlab⟩ :=
                        ihLS ct s2 _ _ s' n a h span1.2.2.2.1 span1.2.2.2.2.1
                          span1.2.2.2.2.2.1
                          (labelsLong_add_child (labelsLong_popLastChild hpop hast) lab_ca)
                      rw [leafCount_add_child] at E2
                      obtain ⟨K, spanK, EK⟩ :=
                        container_step 1 (by omega) (by omega) h1 span1 span2 E1
                          (show n.leafCount + s2.idx
                              = node.leafCount + (1 - 1) + cn.leafCount + close + 2 + k2 by omega)
                      exact ⟨close, K, spanK, EK, hlab⟩
            · split at h
              · next hstr =>
                split at h
                · cases h
                · next node_val hnv =>
                  split at h
                  · cases h
                  · next hnres =>
                    split at h
                    · cases h
                    · next s1 hg =>
                      obtain ⟨hidx1, hget1⟩ := get_next_token_ok hg
                      obtain ⟨hlt, -⟩ := List.get?_eq_some.mp hget1
                      have hval4 : 4 ≤ node_val.length := Htoks _ (pyGet_ok_mem hnv)
                      obtain ⟨close, k, hspan, hleaf, hlab⟩ :=
                        ihLS ct s1 _ _ s' n a h (by omega) (by omega)
                          (by rw [hidx1]; simpa using hget1)
                          (labelsLong_add_child hast (labelsLong_leaf hval4))
                      obtain ⟨g1, g2, g3, g4, g5, g6, g7⟩ := hspan
                      refine ⟨close, k, ⟨by omega, g2, g3, g4, g5, g6, g7⟩, ?_, hlab⟩
                      rw [leafCount_add_child, leafCount_leaf] at hleaf
                      omega
              · split at h
                · next hnum =>
                  split at h
                  · cases h
                  · next node_val hnv =>
                    split at h
                    · cases h
                    · next lastC hlast =>
                      split at h
                      · cases h
                      · next firstC hfirst =>
                        split at h
                        · cases h
                        · next hdec =>
                          split at h
                          · cases h
                          · next hchar =>
                            split at h
                            · cases h
                            · next s1 hg =>
                              obtain ⟨hidx1, hget1⟩ := get_next_token_ok hg
                              obtain ⟨hlt, -⟩ := List.get?_eq_some.mp hget1
                              have hval4 : 4 ≤ node_val.length := Htoks _ (pyGet_ok_mem hnv)
                              obtain ⟨close, k, hspan, hleaf, hlab⟩ :=
                                ihLS ct s1 _ _ s' n a h (by omega) (by omega)
                                  (by rw [hidx1]; simpa using hget1)
                                  (labelsLong_add_child hast (labelsLong_leaf hval4))
                              obtain ⟨g1, g2, g3, g4, g5, g6, g7⟩ := hspan
                              refine ⟨close, k, ⟨by omega, g2, g3, g4, g5, g6, g7⟩, ?_, hlab⟩
                              rw [leafCount_add_child, leafCount_leaf] at hleaf
                              omega
                · next hkw =>
                  split at h
                  · cases h
                  · next lex hlex =>
                    split at h
                    · cases h
                    · next s1 hg =>
                      obtain ⟨hidx1, hget1⟩ := get_next_token_ok hg
                      obtain ⟨hlt, -⟩ := List.get?_eq_some.mp hget1
                      have hval4 : 4 ≤ lex.length := Htoks _ (pyGet_ok_mem hlex)
                      obtain ⟨close, k, hspan, hleaf, hlab⟩ :=
                        ihLS ct s1 _ _ s' n a h (by omega) (by omega)
                          (by rw [hidx1]; simpa using hget1)
                          (labelsLong_add_child hast (labelsLong_leaf hval4))
                      obtain ⟨g1, g2, g3, g4, g5, g6, g7⟩ := hspan
                      refine ⟨close, k, ⟨by omega, g2, g3, g4, g5, g6, g7⟩, ?_, hlab⟩
                      rw [leafCount_add_child, leafCount_leaf] at hleaf
                      omega
      · next hmem =>
        cases h
    -- parse_list_sep
    · intro ct s node ast s' n a h h1 h2 hcur hast
      simp only [parse_list_sep] at h
      split at h
      -- comma branch
      · next hcomma =>
        split at h
        · cases h
        · next s1 hg =>
          split at h
          · cases h
          · next hnotR =>
            obtain ⟨hidx1, hget1⟩ := get_next_token_ok hg
            obtain ⟨hlt, -⟩ := List.get?_eq_some.mp hget1
            obtain ⟨close, k, hspan, hleaf, hlab⟩ :=
              ihLL ct s1.cur s1 (node.add_child (.mk "," true [])) ast s' n a h
                (by omega) (by omega) (by rw [hidx1]; simpa using hget1) rfl hnotR hast
            obtain ⟨g1, g2, g3, g4, g5, g6, g7⟩ := hspan
            refine ⟨close, k, ⟨by omega, g2, g3, g4, g5, g6, g7⟩, ?_, hlab⟩
            rw [leafCount_add_child, leafCount_leaf] at hleaf
            omega
      · split at h
        -- close bracket branch
        · next hcomma hR =>
          cases h
          rw [hR] at hcur
          obtain ⟨hlt, -⟩ := List.get?_eq_some.mp hcur
          rcases tryNext_cases tys s with ⟨t, hgt, htn⟩ | ⟨hgt, htn⟩
          · obtain ⟨hlt2, -⟩ := List.get?_eq_some.mp hgt
            refine ⟨s.idx - 1, 0, ⟨by omega, by omega, hcur, ?_, ?_, ?_, ?_⟩, ?_, hast⟩
            · rw [htn]; (try dsimp only); omega
            · rw [htn]; (try dsimp only); omega
            · rw [htn]; (try dsimp only); simpa using hgt
            · rw [htn]; (try dsimp only); left; constructor <;> omega
            · rw [leafCount_add_child, leafCount_leaf]; omega
          · have hlen : tys.length ≤ s.idx := List.get?_eq_none.mp hgt
            refine ⟨s.idx - 1, 0, ⟨by omega, by omega, hcur, ?_, ?_, ?_, ?_⟩, ?_, hast⟩
            · rw [htn]; (try dsimp only); omega
            · rw [htn]; (try dsimp only); omega
            · rw [htn, hR]; exact hcur
            · rw [htn]; (try dsimp only); right; constructor <;> omega
            · rw [leafCount_add_child, leafCount_leaf]; omega
        · cases h
    -- parse_dict entry
    · intro tp s name s' n a h h1 h2 hcur htp hname
      have hn0 : (Node.mk "dict" false [Node.mk "\x7b" true []]).leafCount = 1 := by
        rw [leafCount_mk, leafCountL_cons, leafCountL_nil, leafCount_leaf]
        simp
      simp only [parse_dict] at h
      split at h
      · next hR =>
        cases h
        rw [htp] at hR
        rw [hR] at hcur
        obtain ⟨hlt, -⟩ := List.get?_eq_some.mp hcur
        rcases tryNext_cases tys s with ⟨t, hgt, htn⟩ | ⟨hgt, htn⟩
        · obtain ⟨hlt2, -⟩ := List.get?_eq_some.mp hgt
          refine ⟨s.idx - 1, 0, ⟨by omega, by omega, hcur, ?_, ?_, ?_, ?_⟩, ?_,
            labelsLong_interior hname⟩
          · rw [htn]; (try dsimp only); omega
          · rw [htn]; (try dsimp only); omega
          · rw [htn]; (try dsimp only); simpa using hgt
          · rw [htn]; (try dsimp only); left; constructor <;> omega
          · rw [leafCount_add_child, leafCount_leaf, hn0]; omega
        · have hlen : tys.length ≤ s.idx := List.get?_eq_none.mp hgt
          refine ⟨s.idx - 1, 0, ⟨by omega, by omega, hcur, ?_, ?_, ?_, ?_⟩, ?_,
            labelsLong_interior hname⟩
          · rw [htn]; (try dsimp only); omega
          · rw [htn]; (try dsimp only); omega
          · rw [htn, hR]; exact hcur
          · rw [htn]; (try dsimp only); right; constructor <;> omega
          · rw [leafCount_add_child, leafCount_leaf, hn0]; omega
      · next hR =>
        obtain ⟨close, k, hspan, hleaf, hlab⟩ :=
          ihDL tp s (Node.mk "dict" false [Node.mk "\x7b" true []])
            (Node.mk name false []) [] s' n a h h1 h2 hcur htp
            (labelsLong_interior hname)
        rw [hn0] at hleaf
        exact ⟨close, k, hspan, by omega, hlab⟩
    -- parse_dict_loop
    · intro tp s node ast keys s' n a h h1 h2 hcur htp hast
      unfold parse_dict_loop at h
      by_cases hstr : tp = "STRING"
      case neg => rw [if_neg hstr] at h; cases h
      rw [if_pos hstr] at h
      rcases hnv : pyGet toks ((s.idx : Int) - 1) with e | node_val
      · rw [hnv] at h; cases h
      · rw [hnv] at h
        (try simp only [] at h)
        by_cases hek : (pyIsspace node_val = true ∨ node_val = "")
        · rw [if_pos hek] at h; cases h
        · rw [if_neg hek] at h
          by_cases hrk : node_val ∈ reservedWords
          · rw [if_pos hrk] at h; cases h
          · rw [if_neg hrk] at h
            by_cases hdup : node_val ∈ keys
            · rw [if_pos hdup] at h; cases h
            · rw [if_neg hdup] at h
              (try simp only [] at h)
              rcases hgca : get_next_token tys s with e | sca
              · rw [hgca] at h; cases h
              · rw [hgca] at h
                (try simp only [] at h)
                by_cases hcol : sca.cur ≠ "COLON"
                · rw [if_pos hcol] at h; cases h
                · rw [if_neg hcol] at h
                  rcases hgv : get_next_token tys sca with e | sv
                  · rw [hgv] at h; cases h
                  · rw [hgv] at h
                    (try simp only [] at h)
                    by_cases hvk : sv.cur ∈ valueKinds
                    · rw [if_pos hvk] at h
                      split at h
                      · next hlb =>
                        split at h
                        · cases h
                        · next sv1 hgv1 =>
                          split at h
                          · cases h
                          · next ast2 hpop =>
                            split at h
                            · cases h
                            · next name hpg =>
                              split at h
                              · cases h
                              · next s3 cn ca hrec =>
                                have hkey4 : 4 ≤ node_val.length := Htoks _ (pyGet_ok_mem hnv)
                                obtain ⟨hia, hga⟩ := get_next_token_ok hgca
                                obtain ⟨hlta, -⟩ := List.get?_eq_some.mp hga
                                obtain ⟨hiv, hgvv⟩ := get_next_token_ok hgv
                                obtain ⟨hltv, -⟩ := List.get?_eq_some.mp hgvv
                                obtain ⟨hi1, hg1⟩ := get_next_token_ok hgv1
                                obtain ⟨hlt1, -⟩ := List.get?_eq_some.mp hg1
                                have hname4 : 4 ≤ name.length := Htoks _ (pyGet_ok_mem hpg)
                                have hast1 : (ast.add_child (Node.mk node_val true [])).labelsLong = true :=
                                  labelsLong_add_child hast (labelsLong_leaf hkey4)
                                obtain ⟨close1, k1, span1, E1, lab_ca⟩ :=
                                  ihL sv1.cur sv1 name s3 cn ca hrec (by omega) (by omega)
                                    (by rw [hi1]; simpa using hg1) rfl hname4
                                obtain ⟨close, k2, span2, E2, hlab⟩ :=
                                  ihDS s3 _ _ _ s' n a h span1.2.2.2.1 span1.2.2.2.2.1
                                    span1.2.2.2.2.2.1
                                    (labelsLong_add_child (labelsLong_popLastChild hpop hast1) lab_ca)
                                rw [leafCount_add_child, leafCount_add_child, leafCount_add_child,
                                  leafCount_leaf, leafCount_leaf] at E2
                                obtain ⟨K, spanK, EK⟩ :=
                                  container_step 3 (by omega) (by omega) h1 span1 span2 E1
                                    (show n.leafCount + s3.idx
                                        = node.leafCount + (3 - 1) + cn.leafCount + close + 2 + k2 by omega)
                                exact ⟨close, K, spanK, EK, hlab⟩
                      · split at h
                        · next hlb2 =>
                          split at h
                          · cases h
                          · next sv1 hgv1 =>
                            split at h
                            · cases h
                            · next ast2 hpop =>
                              split at h
                              · cases h
                              · next name hpg =>
                                split at h
                                · cases h
                                · next s3 cn ca hrec =>
                                  have hkey4 : 4 ≤ node_val.length := Htoks _ (pyGet_ok_mem hnv)
                                  obtain ⟨hia, hga⟩ := get_next_token_ok hgca
                                  obtain ⟨hlta, -⟩ := List.get?_eq_some.mp hga
                                  obtain ⟨hiv, hgvv⟩ := get_next_token_ok hgv
                                  obtain ⟨hltv, -⟩ := List.get?_eq_some.mp hgvv
                                  obtain ⟨hi1, hg1⟩ := get_next_token_ok hgv1
                                  obtain ⟨hlt1, -⟩ := List.get?_eq_some.mp hg1
                                  have hname4 : 4 ≤ name.length := Htoks _ (pyGet_ok_mem hpg)
                                  have hast1 : (ast.add_child (Node.mk node_val true [])).labelsLong = true :=
                                    labelsLong_add_child hast (labelsLong_leaf hkey4)
                                  obtain ⟨close1, k1, span1, E1, lab_ca⟩ :=
                                    ihD sv1.cur sv1 name s3 cn ca hrec (by omega) (by omega)
                                      (by rw [hi1]; simpa using hg1) rfl hname4
                                  obtain ⟨close, k2, span2, E2, hlab⟩ :=
                                    ihDS s3 _ _ _ s' n a h span1.2.2.2.1 span1.2.2.2.2.1
                                      span1.2.2.2.2.2.1
                                      (labelsLong_add_child (labelsLong_popLastChild hpop hast1) lab_ca)
                                  rw [leafCount_add_child, leafCount_add_child, leafCount_add_child,
                                    leafCount_leaf, leafCount_leaf] at E2
                                  obtain ⟨K, spanK, EK⟩ :=
                                    container_step 3 (by omega) (by omega) h1 span1 span2 E1
                                      (show n.leafCount + s3.idx
                                          = node.leafCount + (3 - 1) + cn.leafCount + close + 2 + k2 by omega)
                                  exact ⟨close, K, spanK, EK, hlab⟩
                        · split at h
                          · next hsv =>
                            split at h
                            · cases h
                            · next v hv =>
                              split at h
                              · cases h
                              · next hvres =>
                                split at h
                                · cases h
                                · next ast2 hed =>
                                  split at h
                                  · cases h
                                  · next s3 hg3 =>
                                    have hkey4 : 4 ≤ node_val.length := Htoks _ (pyGet_ok_mem hnv)
                                    obtain ⟨hia, hga⟩ := get_next_token_ok hgca
                                    obtain ⟨hlta, -⟩ := List.get?_eq_some.mp hga
                                    obtain ⟨hiv, hgvv⟩ := get_next_token_ok hgv
                                    obtain ⟨hltv, -⟩ := List.get?_eq_some.mp hgvv
                                    obtain ⟨hi3, hg3v⟩ := get_next_token_ok hg3
                                    obtain ⟨hlt3, -⟩ := List.get?_eq_some.mp hg3v
                                    have hast1 : (ast.add_child (Node.mk node_val true [])).labelsLong = true :=
                                      labelsLong_add_child hast (labelsLong_leaf hkey4)
                                    obtain ⟨close, k, hspan, hleaf, hlab⟩ :=
                                      ihDS s3 _ _ _ s' n a h (by omega) (by omega)
                                        (by rw [hi3]; simpa using hg3v)
                                        (labelsLong_editLastChild hed hast1)
                                    obtain ⟨g1, g2, g3, g4, g5, g6, g7⟩ := hspan
                                    refine ⟨close, k, ⟨by omega, g2, g3, g4, g5, g6, g7⟩, ?_, hlab⟩
                                    rw [leafCount_add_child, leafCount_add_child, leafCount_add_child,
                                      leafCount_leaf, leafCount_leaf, leafCount_leaf] at hleaf
                                    omega
                          · split at h
                            · next hnv2 =>
                              split at h
                              · cases h
                              · next v hv =>
                                split at h
                                · cases h
                                · next lastC hlast =>
                                  split at h
                                  · cases h
                                  · next firstC hfirst =>
                                    split at h
                                    · cases h
                                    · next hdec =>
                                      split at h
                                      · cases h
                                      · next hchar =>
                                        split at h
                                        · cases h
                                        · next ast2 hed =>
                                          split at h
                                          · cases h
                                          · next s3 hg3 =>
                                            have hkey4 : 4 ≤ node_val.length := Htoks _ (pyGet_ok_mem hnv)
                                            obtain ⟨hia, hga⟩ := get_next_token_ok hgca
                                            obtain ⟨hlta, -⟩ := List.get?_eq_some.mp hga
                                            obtain ⟨hiv, hgvv⟩ := get_next_token_ok hgv
                                            obtain ⟨hltv, -⟩ := List.get?_eq_some.mp hgvv
                                            obtain ⟨hi3, hg3v⟩ := get_next_token_ok hg3
                                            obtain ⟨hlt3, -⟩ := List.get?_eq_some.mp hg3v
                                            have hast1 : (ast.add_child (Node.mk node_val true [])).labelsLong = true :=
                                              labelsLong_add_child hast (labelsLong_leaf hkey4)
                                            obtain ⟨close, k, hspan, hleaf, hlab⟩ :=
                                              ihDS s3 _ _ _ s' n a h (by omega) (by omega)
                                                (by rw [hi3]; simpa using hg3v)
                                                (labelsLong_editLastChild hed hast1)
                                            obtain ⟨g1, g2, g3, g4, g5, g6, g7⟩ := hspan
                                            refine ⟨close, k, ⟨by omega, g2, g3, g4, g5, g6, g7⟩, ?_, hlab⟩
                                            rw [leafCount_add_child, leafCount_add_child, leafCount_add_child,
                                              leafCount_leaf, leafCount_leaf, leafCount_leaf] at hleaf
                                            omega
                            · next hkw =>
                              split at h
                              · cases h
                              · next lex hlex =>
                                split at h
                                · cases h
                                · next ast2 hed =>
                                  split at h
                                  · cases h
                                  · next s3 hg3 =>
                                    have hkey4 : 4 ≤ node_val.length := Htoks _ (pyGet_ok_mem hnv)
                                    obtain ⟨hia, hga⟩ := get_next_token_ok hgca
                                    obtain ⟨hlta, -⟩ := List.get?_eq_some.mp hga
                                    obtain ⟨hiv, hgvv⟩ := get_next_token_ok hgv
                                    obtain ⟨hltv, -⟩ := List.get?_eq_some.mp hgvv
                                    obtain ⟨hi3, hg3v⟩ := get_next_token_ok hg3
                                    obtain ⟨hlt3, -⟩ := List.get?_eq_some.mp hg3v
                                    have hast1 : (ast.add_child (Node.mk node_val true [])).labelsLong = true :=
                                      labelsLong_add_child hast (labelsLong_leaf hkey4)
                                    obtain ⟨close, k, hspan, hleaf, hlab⟩ :=
                                      ihDS s3 _ _ _ s' n a h (by omega) (by omega)
                                        (by rw [hi3]; simpa using hg3v)
                                        (labelsLong_editLastChild hed hast1)
                                    obtain ⟨g1, g2, g3, g4, g5, g6, g7⟩ := hspan
                                    refine ⟨close, k, ⟨by omega, g2, g3, g4, g5, g6, g7⟩, ?_, hlab⟩
                                    rw [leafCount_add_child, leafCount_add_child, leafCount_add_child,
                                      leafCount_leaf, leafCount_leaf, leafCount_leaf] at hleaf
                                    omega
                    · rw [if_neg hvk] at h; cases h
    -- parse_dict_sep
    · intro s node ast keys s' n a h h1 h2 hcur hast
      simp only [parse_dict_sep] at h
      split at h
      · next hcomma =>
        split at h
        · cases h
        · next s1 hg =>
          split at h
          · cases h
          · next hnotR =>
            obtain ⟨hidx1, hget1⟩ := get_next_token_ok hg
            obtain ⟨hlt, -⟩ := List.get?_eq_some.mp hget1
            obtain ⟨close, k, hspan, hleaf, hlab⟩ :=
              ihDL s1.cur s1 (node.add_child (.mk "," true [])) ast keys s' n a h
                (by omega) (by omega) (by rw [hidx1]; simpa using hget1) rfl hast
            obtain ⟨g1, g2, g3, g4, g5, g6, g7⟩ := hspan
            refine ⟨close, k, ⟨by omega, g2, g3, g4, g5, g6, g7⟩, ?_, hlab⟩
            rw [leafCount_add_child, leafCount_leaf] at hleaf
            omega
      · split at h
        · next hcomma hR =>
          cases h
          rw [hR] at hcur
          obtain ⟨hlt, -⟩ := List.get?_eq_some.mp hcur
          rcases tryNext_cases tys s with ⟨t, hgt, htn⟩ | ⟨hgt, htn⟩
          · obtain ⟨hlt2, -⟩ := List.get?_eq_some.mp hgt
            refine ⟨s.idx - 1, 0, ⟨by omega, by omega, hcur, ?_, ?_, ?_, ?_⟩, ?_, hast⟩
            · rw [htn]; (try dsimp only); omega
            · rw [htn]; (try dsimp only); omega
            · rw [htn]; (try dsimp only); simpa using hgt
            · rw [htn]; (try dsimp only); left; constructor <;> omega
            · rw [leafCount_add_child, leafCount_leaf]; omega
          · have hlen : tys.length ≤ s.idx := List.get?_eq_none.mp hgt
            refine ⟨s.idx - 1, 0, ⟨by omega, by omega, hcur, ?_, ?_, ?_, ?_⟩, ?_, hast⟩
            · rw [htn]; (try dsimp only); omega
            · rw [htn]; (try dsimp only); omega
            · rw [htn, hR]; exact hcur
            · rw [htn]; (try dsimp only); right; constructor <;> omega
            · rw [leafCount_add_child, leafCount_leaf]; omega
        · cases h


theorem punctFree_mk (l : String) (b : Bool) (cs : List Node) :
    (Node.mk l b cs).punctFree = (decide (l ∉ punctLabels) && Node.punctFreeL cs) := by
  rw [Node.punctFree]

theorem punctFreeL_nil : Node.punctFreeL [] = true := by rw [Node.punctFreeL]

theorem punctFreeL_cons (n : Node) (ns : List Node) :
    Node.punctFreeL (n :: ns) = (n.punctFree && Node.punctFreeL ns) := by
  rw [Node.punctFreeL]

mutual

theorem punctFree_of_labelsLong : ∀ n : Node, n.labelsLong = true → n.punctFree = true
  | .mk l b cs, h => by
    rw [labelsLong_mk, Bool.and_eq_true] at h
    rw [punctFree_mk, Bool.and_eq_true]
    refine ⟨?_, punctFreeL_of_labelsLongL cs h.2⟩
    have h4 : 4 ≤ l.length := by simpa using h.1
    simp only [decide_eq_true_eq]
    intro hmem
    simp only [punctLabels, List.mem_cons, List.not_mem_nil, or_false] at hmem
    rcases hmem with rfl | rfl | rfl | rfl | rfl | rfl <;> exact absurd h4 (by decide)

theorem punctFreeL_of_labelsLongL :
    ∀ cs : List Node, Node.labelsLongL cs = true → Node.punctFreeL cs = true
  | [], _ => punctFreeL_nil
  | c :: cs, h => by
    rw [labelsLongL_cons, Bool.and_eq_true] at h
    rw [punctFreeL_cons, Bool.and_eq_true]
    exact ⟨punctFree_of_labelsLong c h.1, punctFreeL_of_labelsLongL cs h.2⟩

end

theorem mem_append_single_len4 {ts : List String} {x : String}
    (hd : ∀ e ∈ ts, 4 ≤ e.length) (hx : 4 ≤ x.length) :
    ∀ e ∈ ts ++ [x], 4 ≤ e.length := by
  intro e he
  rcases List.mem_append.mp he with he | he
  · exact hd e he
  · rw [List.mem_singleton] at he
    subst he
    exact hx

theorem stepS0_len4 {d : DFA} {pos : Nat} {c : Char} {d' : DFA} {st' : LexState}
    (h : stepS0 d pos c = .ok (d', st'))
    (hd : ∀ e ∈ d.tokens, 4 ≤ e.length) : ∀ e ∈ d'.tokens, 4 ≤ e.length := by
  unfold stepS0 at h
  split at h
  · cases h; exact mem_append_single_len4 hd (by decide)
  · split at h
    · cases h; exact mem_append_single_len4 hd (by decide)
    · split at h
      · cases h; exact mem_append_single_len4 hd (by decide)
      · split at h
        · cases h; exact mem_append_single_len4 hd (by decide)
        · split at h
          · cases h; exact mem_append_single_len4 hd (by decide)
          · split at h
            · cases h; exact mem_append_single_len4 hd (by decide)
            · split at h
              · cases h; exact hd
              · split at h
                · cases h; exact hd
                · split at h
                  · cases h; exact hd
                  · split at h
                    · cases h; exact hd
                    · cases h

theorem tokStep_len4 {d : DFA} {pos : Nat} {st : LexState} {c : Char} {d' : DFA}
    {st' : LexState} (h : tokStep d pos st c = .ok (d', st'))
    (hd : ∀ e ∈ d.tokens, 4 ≤ e.length) : ∀ e ∈ d'.tokens, 4 ≤ e.length := by
  cases st with
  | s0 =>
    simp only [tokStep] at h
    exact stepS0_len4 h hd
  | str buf =>
    simp only [tokStep] at h
    split at h
    · cases h
      refine mem_append_single_len4 hd ?_
      rw [String.length_append]
      have h7 : ("STRING:" : String).length = 7 := by decide
      omega
    · split at h
      · cases h; exact hd
      · cases h; exact hd
  | strEsc buf =>
    simp only [tokStep] at h
    cases h; exact hd
  | num buf =>
    simp only [tokStep] at h
    split at h
    · cases h; exact hd
    · split at h
      · refine stepS0_len4 h (mem_append_single_len4 hd ?_)
        rw [String.length_append]
        have h7 : ("NUMBER:" : String).length = 7 := by decide
        omega
      · cases h
  | kw buf =>
    simp only [tokStep] at h
    split at h
    · cases h; exact mem_append_single_len4 hd (by decide)
    · split at h
      · cases h; exact mem_append_single_len4 hd (by decide)
      · split at h
        · cases h; exact mem_append_single_len4 hd (by decide)
        · split at h
          · cases h; exact hd
          · cases h

theorem tokEnd_len4 {d : DFA} {st : LexState} {d' : DFA}
    (h : tokEnd d st = .ok d') (hd : ∀ e ∈ d.tokens, 4 ≤ e.length) :
    ∀ e ∈ d'.tokens, 4 ≤ e.length := by
  cases st with
  | s0 => simp only [tokEnd] at h; cases h; exact hd
  | str buf => simp only [tokEnd] at h; cases h
  | strEsc buf => simp only [tokEnd] at h; cases h
  | num buf =>
    simp only [tokEnd] at h
    split at h
    · cases h
      refine mem_append_single_len4 hd ?_
      rw [String.length_append]
      have h7 : ("NUMBER:" : String).length = 7 := by decide
      omega
    · cases h
  | kw buf =>
    simp only [tokEnd] at h
    split at h
    · cases h; exact hd
    · cases h

theorem tokGo_len4 : ∀ (chars : List Char) (d : DFA) (pos : Nat) (st : LexState) (d' : DFA),
    tokGo d pos st chars = .ok d' → (∀ e ∈ d.tokens, 4 ≤ e.length) →
    ∀ e ∈ d'.tokens, 4 ≤ e.length := by
  intro chars
  induction chars with
  | nil =>
    intro d pos st d' h hd
    simp only [tokGo] at h
    exact tokEnd_len4 h hd
  | cons c rest ih =>
    intro d pos st d' h hd
    simp only [tokGo] at h
    split at h
    · cases h
    · next d1 st1 hstep =>
      exact ih d1 (pos + 1) st1 d' h (tokStep_len4 hstep hd)

theorem tokenize_len4 {input : String} {d : DFA}
    (h : DFA.init.tokenize input = .ok d) : ∀ e ∈ d.tokens, 4 ≤ e.length := by
  unfold DFA.tokenize at h
  refine tokGo_len4 input.toList DFA.init 0 .s0 d h ?_
  intro e he
  simp [DFA.init] at he


theorem stepS0_balance {d : DFA} {pos : Nat} {c : Char} {d' : DFA} {st' : LexState}
    (h : stepS0 d pos c = .ok (d', st'))
    (hd : d.token_types.length = d.tokens.length) :
    d'.token_types.length = d'.tokens.length + stOff st' ∧
    (∀ buf, st' = .kw buf → ¬(buf = "true" ∨ buf = "false" ∨ buf = "null")) := by
  unfold stepS0 at h
  split at h
  · cases h
    exact ⟨by simp only [List.length_append, List.length_singleton, stOff]; omega, fun b hb => by cases hb⟩
  · split at h
    · cases h
      exact ⟨by simp only [List.length_append, List.length_singleton, stOff]; omega, fun b hb => by cases hb⟩
    · split at h
      · cases h
        exact ⟨by simp only [List.length_append, List.length_singleton, stOff]; omega, fun b hb => by cases hb⟩
      · split at h
        · cases h
          exact ⟨by simp only [List.length_append, List.length_singleton, stOff]; omega, fun b hb => by cases hb⟩
        · split at h
          · cases h
            exact ⟨by simp only [List.length_append, List.length_singleton, stOff]; omega, fun b hb => by cases hb⟩
          · split at h
            · cases h
              exact ⟨by simp only [List.length_append, List.length_singleton, stOff]; omega, fun b hb => by cases hb⟩
            · split at h
              · cases h
                exact ⟨by simp only [List.length_append, List.length_singleton, stOff]; omega,
                  fun b hb => by cases hb⟩
              · split at h
                · cases h
                  exact ⟨by simp only [List.length_append, List.length_singleton, stOff]; omega,
                    fun b hb => by cases hb⟩
                · split at h
                  · cases h
                    refine ⟨by simp only [List.length_append, List.length_singleton, stOff]; omega, ?_⟩
                    intro b hb
                    cases hb
                    intro hor
                    have h1 : (String.singleton c).length = 1 := rfl
                    rcases hor with he | he | he <;>
                      (have h2 := congrArg String.length he
                       rw [h1] at h2
                       exact absurd h2 (by decide))
                  · split at h
                    · cases h
                      exact ⟨by simp only [stOff]; omega, fun b hb => by cases hb⟩
                    · cases h

theorem tokStep_balance {d : DFA} {pos : Nat} {st : LexState} {c : Char} {d' : DFA}
    {st' : LexState} (h : tokStep d pos st c = .ok (d', st'))
    (hd : d.token_types.length = d.tokens.length + stOff st)
    (hkw : ∀ buf, st = .kw buf → ¬(buf = "true" ∨ buf = "false" ∨ buf = "null")) :
    d'.token_types.length = d'.tokens.length + stOff st' ∧
    (∀ buf, st' = .kw buf → ¬(buf = "true" ∨ buf = "false" ∨ buf = "null")) := by
  cases st with
  | s0 =>
    simp only [tokStep] at h
    exact stepS0_balance h (by simpa [stOff] using hd)
  | str buf =>
    simp only [tokStep] at h
    simp only [stOff] at hd
    split at h
    · cases h
      exact ⟨by simp only [List.length_append, List.length_singleton, stOff]; omega, fun b hb => by cases hb⟩
    · split at h
      · cases h
        exact ⟨by simp only [stOff]; omega, fun b hb => by cases hb⟩
      · cases h
        exact ⟨by simp only [stOff]; omega, fun b hb => by cases hb⟩
  | strEsc buf =>
    simp only [tokStep] at h
    simp only [stOff] at hd
    cases h
    exact ⟨by simp only [stOff]; omega, fun b hb => by cases hb⟩
  | num buf =>
    simp only [tokStep] at h
    simp only [stOff] at hd
    split at h
    · cases h
      exact ⟨by simp only [stOff]; omega, fun b hb => by cases hb⟩
    · split at h
      · refine stepS0_balance h ?_
        simp only [List.length_append, List.length_singleton]
        omega
      · cases h
  | kw buf =>
    simp only [tokStep] at h
    simp only [stOff] at hd
    split at h
    · cases h
      exact ⟨by simp only [List.length_append, List.length_singleton, stOff]; omega, fun b hb => by cases hb⟩
    · next h1 =>
      split at h
      · cases h
        exact ⟨by simp only [List.length_append, List.length_singleton, stOff]; omega, fun b hb => by cases hb⟩
      · next h2 =>
        split at h
        · cases h
          exact ⟨by simp only [List.length_append, List.length_singleton, stOff]; omega, fun b hb => by cases hb⟩
        · next h3 =>
          split at h
          · cases h
            refine ⟨by simp only [stOff]; omega, ?_⟩
            intro b hb
            cases hb
            intro hor
            rcases hor with he | he | he
            · exact h1 he
            · exact h2 he
            · exact h3 he
          · cases h

theorem tokEnd_balance {d : DFA} {st : LexState} {d' : DFA}
    (h : tokEnd d st = .ok d')
    (hd : d.token_types.length = d.tokens.length + stOff st)
    (hkw : ∀ buf, st = .kw buf → ¬(buf = "true" ∨ buf = "false" ∨ buf = "null")) :
    d'.token_types.length = d'.tokens.length := by
  cases st with
  | s0 =>
    simp only [tokEnd] at h
    cases h
    simpa [stOff] using hd
  | str buf => simp only [tokEnd] at h; cases h
  | strEsc buf => simp only [tokEnd] at h; cases h
  | num buf =>
    simp only [tokEnd] at h
    simp only [stOff] at hd
    split at h
    · cases h
      simp only [List.length_append, List.length_singleton]
      omega
    · cases h
  | kw buf =>
    simp only [tokEnd] at h
    split at h
    · next hcond => exact absurd hcond (hkw buf rfl)
    · cases h

theorem tokGo_balance : ∀ (chars : List Char) (d : DFA) (pos : Nat) (st : LexState) (d' : DFA),
    tokGo d pos st chars = .ok d' →
    d.token_types.length = d.tokens.length + stOff st →
    (∀ buf, st = .kw buf → ¬(buf = "true" ∨ buf = "false" ∨ buf = "null")) →
    d'.token_types.length = d'.tokens.length := by
  intro chars
  induction chars with
  | nil =>
    intro d pos st d' h hd hkw
    simp only [tokGo] at h
    exact tokEnd_balance h hd hkw
  | cons c rest ih =>
    intro d pos st d' h hd hkw
    simp only [tokGo] at h
    split at h
    · cases h
    · next d1 st1 hstep =>
      obtain ⟨hb1, hb2⟩ := tokStep_balance hstep hd hkw
      exact ih d1 (pos + 1) st1 d' h hb1 hb2

theorem tokenize_balance {input : String} {d : DFA}
    (h : DFA.init.tokenize input = .ok d) :
    d.token_types.length = d.tokens.length := by
  unfold DFA.tokenize at h
  refine tokGo_balance input.toList DFA.init 0 .s0 d h ?_ ?_
  · simp [DFA.init, stOff]
  · intro buf hb
    cases hb

theorem parse_top {d : DFA} {sf : PState} {pt ast : Node}
    (Htoks : ∀ e ∈ d.tokens, 4 ≤ e.length)
    (h : ParseTree.parse d = .ok (sf, pt, ast)) :
    ast.labelsLong = true ∧
    ∃ close closeTok,
      (closeTok = "RBRACE" ∨ closeTok = "RBRACKET") ∧
      d.token_types.get? close = some closeTok ∧
      ((d.token_types.length = close + 2 ∧ pt.leafCount + 1 = d.token_types.length) ∨
       (d.token_types.length = close + 1 ∧ d.token_types.length ≤ pt.leafCount)) := by
  unfold ParseTree.parse at h
  (try simp only [] at h)
  split at h
  · cases h
  · next t0 hg0 =>
    split at h
    · cases h
    · next sf0 n0 a0 hres =>
      split at h
      · cases h
      · next htr =>
        cases h
        have hlt0 : 0 < d.token_types.length := (List.get?_eq_some.mp hg0).1
        split at hres
        · next hbrace =>
          split at hres
          · cases hres
          · next s1 hg1 =>
            obtain ⟨hi1, hgt1⟩ := get_next_token_ok hg1
            have hi1n : s1.idx = 2 := by rw [hi1]
            have hlt1 : 1 < d.token_types.length := (List.get?_eq_some.mp hgt1).1
            obtain ⟨close, k, span, E, hlab⟩ :=
              (parse_invariants d.tokens d.token_types Htoks
                  (4 * d.token_types.length + 16)).2.2.2.1 s1.cur s1 "dict" sf pt ast hres
                (by omega) (by omega) (by rw [hi1n]; simpa using hgt1) rfl (by decide)
            obtain ⟨g1, g2, g3, g4, g5, g6, g7⟩ := span
            refine ⟨hlab, close, "RBRACE", Or.inl rfl, g3, ?_⟩
            rcases g7 with ⟨ga, gb⟩ | ⟨ga, gb⟩ <;> omega
        · split at hres
          · next hbracket =>
            split at hres
            · cases hres
            · next s1 hg1 =>
              obtain ⟨hi1, hgt1⟩ := get_next_token_ok hg1
              have hi1n : s1.idx = 2 := by rw [hi1]
              have hlt1 : 1 < d.token_types.length := (List.get?_eq_some.mp hgt1).1
              obtain ⟨close, k, span, E, hlab⟩ :=
                (parse_invariants d.tokens d.token_types Htoks
                    (4 * d.token_types.length + 16)).1 s1.cur s1 "list" sf pt ast hres
                  (by omega) (by omega) (by rw [hi1n]; simpa using hgt1) rfl (by decide)
              obtain ⟨g1, g2, g3, g4, g5, g6, g7⟩ := span
              refine ⟨hlab, close, "RBRACKET", Or.inr rfl, g3, ?_⟩
              rcases g7 with ⟨ga, gb⟩ | ⟨ga, gb⟩ <;> omega
          · cases hres


/-- C6 (amended): after the top-level container closes at token position
`close`, a successful parse leaves at most one unconsumed token
(`tys.length ≤ close + 2`): exactly one trailing token is accepted, as the
input `\x7b\x7d]` (three tokens, close at position 1) shows, while two
trailing tokens (`\x7b\x7d][`) fail with `trailingTokens`. -/
theorem C6_amended :
    (∀ (input : String) (d : DFA) (sf : PState) (pt ast : Node),
      DFA.init.tokenize input = .ok d →
      ParseTree.parse d = .ok (sf, pt, ast) →
      ∃ close closeTok,
        (closeTok = "RBRACE" ∨ closeTok = "RBRACKET") ∧
        d.token_types.get? close = some closeTok ∧
        d.token_types.length ≤ close + 2) ∧
    DFA.init.tokenize "\x7b\x7d]" = .ok dTrailOne ∧
    parseOkB dTrailOne = true ∧
    dTrailOne.token_types.length = 3 ∧
    DFA.init.tokenize "\x7b\x7d][" = .ok dTrailTwo ∧
    parseErrOf dTrailTwo = some .trailingTokens := by
  refine ⟨?_, by decide, by decide, by decide, by decide, by decide⟩
  intro input d sf pt ast htok hparse
  obtain ⟨-, close, closeTok, hct, hg, hdisj⟩ := parse_top (tokenize_len4 htok) hparse
  refine ⟨close, closeTok, hct, hg, ?_⟩
  rcases hdisj with ⟨ha, -⟩ | ⟨ha, -⟩ <;> omega

/-- Witness for C6: the amended bound instantiated on the tokenization of
`\x7b\x7d]`, whose parse succeeds with one trailing token. -/
theorem C6_witness :
    DFA.init.tokenize "\x7b\x7d]" = .ok dTrailOne ∧
    ∃ close closeTok,
      (closeTok = "RBRACE" ∨ closeTok = "RBRACKET") ∧
      dTrailOne.token_types.get? close = some closeTok ∧
      dTrailOne.token_types.length ≤ close + 2 := by
  have h1 : DFA.init.tokenize "\x7b\x7d]" = .ok dTrailOne := by decide
  have h2 : ParseTree.parse dTrailOne =
      .ok ({ idx := 3, cur := "RBRACKET" },
        Node.mk "dict" false [Node.mk "\x7b" true [], Node.mk "\x7d" true []],
        Node.mk "dict" false []) := by rfl
  exact ⟨h1, C6_amended.1 "\x7b\x7d]" dTrailOne _ _ _ h1 h2⟩

/-- C9 (amended): on every successful run the AST is free of punctuation
labels, the tokenizer emits equally many lexemes and token kinds, and the
parse tree's leaf count is either exactly the token count minus one (the
usual case: the cursor rests one past the close) or at least the token
count (the end-of-input stall, where enclosing containers re-consume the
final close); it never equals the token count in the first case, refuting
the claimed equality. -/
theorem C9_amended :
    ∀ (input : String) (d : DFA) (sf : PState) (pt ast : Node),
      DFA.init.tokenize input = .ok d →
      ParseTree.parse d = .ok (sf, pt, ast) →
      ast.punctFree = true ∧
      d.tokens.length = d.token_types.length ∧
      (pt.leafCount + 1 = d.tokens.length ∨ d.tokens.length ≤ pt.leafCount) := by
  intro input d sf pt ast htok hparse
  obtain ⟨hlab, close, closeTok, -, hg, hdisj⟩ := parse_top (tokenize_len4 htok) hparse
  have hbal := tokenize_balance htok
  refine ⟨punctFree_of_labelsLong ast hlab, hbal.symm, ?_⟩
  rcases hdisj with ⟨ha, hb⟩ | ⟨ha, hb⟩ <;> omega

/-- Witness for C9: the amended statement instantiated on the tokenization
of `\x7b\x7d`: two tokens and two token kinds, a parse tree with two
leaves (so leaves plus one equals the token count), and an empty AST. -/
theorem C9_witness :
    DFA.init.tokenize "\x7b\x7d" = .ok dEmptyObj ∧
    (Node.mk "dict" false [] : Node).punctFree = true ∧
    dEmptyObj.tokens.length = dEmptyObj.token_types.length ∧
    ((Node.mk "dict" false [Node.mk "\x7b" true [], Node.mk "\x7d" true []] : Node).leafCount
        + 1 = dEmptyObj.tokens.length ∨
      dEmptyObj.tokens.length
        ≤ (Node.mk "dict" false
            [Node.mk "\x7b" true [], Node.mk "\x7d" true []] : Node).leafCount) := by
  have h1 : DFA.init.tokenize "\x7b\x7d" = .ok dEmptyObj := by decide
  have h2 : ParseTree.parse dEmptyObj =
      .ok ({ idx := 2, cur := "RBRACE" },
        Node.mk "dict" false [Node.mk "\x7b" true [], Node.mk "\x7d" true []],
        Node.mk "dict" false []) := by rfl
  exact ⟨h1, C9_amended "\x7b\x7d" dEmptyObj _ _ _ h1 h2⟩

end JsonCompiler
